import Mathlib

/-!
Verification development for the hrvibe two-bots recruiting pipeline
(manager bot). The Python records are JSON dictionaries persisted to
whole files; we embed them as association lists over a small JSON-like
value type and embed the record-mutating operations of
`services/data_service.py`, the stage guards of
`services/status_validation_service.py`, and the workflow commands of
`manager_bot.py` as pure functions, with external collaborators
(HH API, AI scorer, Telegram transport) supplied by explicit
environment records.
-/

namespace HrVibe

/-- Scalar JSON values stored inside nested objects. -/
inductive Atom where
  | s : String → Atom
  | i : Int → Atom
  deriving DecidableEq, Repr

/-- A value one level inside a JSON object: either a scalar or one more
flat object (enough nesting for `data_from_hh.employer.id`). -/
inductive OV where
  | a : Atom → OV
  | o : List (String × Atom) → OV
  deriving DecidableEq, Repr

/-- Top-level field values of a persisted record: strings (the "yes"/"no"
stage flags, ids, tokens, timestamps), integers (`expires_at`), string
lists, and nested JSON objects (`data_from_hh`, `ai_analysis`). -/
inductive V where
  | str : String → V
  | int : Int → V
  | strs : List String → V
  | obj : List (String × OV) → V
  deriving DecidableEq, Repr

/-- One JSON record: an ordered dictionary of top-level fields, as a
Python `dict` read from a records file. -/
abbrev Dict := List (String × V)

/-- A records file (`users_records.json` or `resume_records.json`):
record id mapped to its record dictionary. -/
abbrev Records := List (String × Dict)

/-- Lookup in an insertion-ordered dictionary (`d[k]` / `k in d`). -/
def getEntry {α : Type} : List (String × α) → String → Option α
  | [], _ => none
  | (k', v') :: rest, k => if k' = k then some v' else getEntry rest k

/-- Assignment `d[k] = v` on an insertion-ordered dictionary: replaces
the first binding of `k` in place, appends when `k` is absent. -/
def setEntry {α : Type} : List (String × α) → String → α → List (String × α)
  | [], k, v => [(k, v)]
  | (k', v') :: rest, k, v =>
      if k' = k then (k, v) :: rest else (k', v') :: setEntry rest k v

/-! ## `services/data_service.py`: record update operations -/

/-- Observable outcome of `update_user_records_with_top_level_key`: the
function either rewrites the records file (`logger.info` branch) or
skips because the record id is absent (`logger.debug` branch). -/
inductive UpdateOutcome where
  | updated
  | skippedMissing
  deriving DecidableEq, Repr

/-- `update_user_records_with_top_level_key` from
`services/data_service.py`: read the users records file, and only when
`record_id` exists assign `records[record_id][key] = value` and write the
whole file back; otherwise skip the update. -/
def update_user_records_with_top_level_key (records : Records) (record_id key : String)
    (value : V) : Records × UpdateOutcome :=
  match getEntry records record_id with
  | some rec =>
      (setEntry records record_id (setEntry rec key value), UpdateOutcome.updated)
  | none => (records, UpdateOutcome.skippedMissing)

/-- `update_resume_record_with_top_level_key` from
`services/data_service.py`: same top-level assignment on the resume
records file, but a missing `resume_record_id` raises `ValueError`
instead of silently skipping. -/
def update_resume_record_with_top_level_key (resume_records : Records)
    (resume_record_id key : String) (value : V) : Except String Records :=
  match getEntry resume_records resume_record_id with
  | some rec =>
      Except.ok (setEntry resume_records resume_record_id (setEntry rec key value))
  | none =>
      Except.error "Resume record does not exist in the file"

/-! ## `services/data_service.py`: record creation -/

/-- The `standard_new_user_values` dictionary of
`create_record_for_new_user_in_records` (`first_time_seen` is the
caller-supplied current UTC timestamp). -/
def standard_new_user_values (record_id first_time_seen : String) : Dict :=
  [("id", V.str record_id),
   ("username", V.str ""),
   ("first_name", V.str ""),
   ("last_name", V.str ""),
   ("first_time_seen", V.str first_time_seen),
   ("privacy_policy_confirmed", V.str "no"),
   ("privacy_policy_confirmation_time", V.str ""),
   ("access_token_recieved", V.str "no"),
   ("access_token", V.str ""),
   ("access_token_expires_at", V.str ""),
   ("data_from_hh", V.obj []),
   ("vacancy_selected", V.str "no"),
   ("vacancy_id", V.str ""),
   ("vacancy_name", V.str ""),
   ("vacancy_video_record_agreed", V.str "no"),
   ("vacancy_video_sending_confirmed", V.str "no"),
   ("vacancy_video_received", V.str "no"),
   ("vacancy_video_path", V.str ""),
   ("vacancy_description_recieved", V.str "no"),
   ("vacancy_sourcing_criterias_recieved", V.str "no")]

/-- `create_record_for_new_user_in_records`: add the standard record for
a new user; skip when the id already exists. -/
def create_record_for_new_user_in_records (records : Records) (record_id now : String) :
    Records :=
  if (getEntry records record_id).isSome then records
  else setEntry records record_id (standard_new_user_values record_id now)

/-- The standard dictionary of
`create_record_for_new_resume_id_in_resume_records` (the vacancy name is
read from the user records by the caller and passed through here). -/
def standard_new_resume_values (bot_user_id vacancy_id vacancy_name resume_record_id :
    String) : Dict :=
  [("manager_bot_user_id", V.str bot_user_id),
   ("vacancy_id", V.str vacancy_id),
   ("vacancy_name", V.str vacancy_name),
   ("negotiation_id", V.str ""),
   ("resume_id", V.str resume_record_id),
   ("first_name", V.str ""),
   ("last_name", V.str ""),
   ("phone", V.str ""),
   ("email", V.str ""),
   ("ai_analysis", V.obj []),
   ("resume_sorting_status", V.str "new"),
   ("request_to_shoot_resume_video_sent", V.str "no"),
   ("resume_video_received", V.str "no"),
   ("resume_video_path", V.str ""),
   ("resume_recommended", V.str "no"),
   ("resume_accepted", V.str "no")]

/-- `create_record_for_new_resume_id_in_resume_records`: add the standard
record for a newly discovered resume id; skip when it already exists. -/
def create_record_for_new_resume_id_in_resume_records (resume_records : Records)
    (bot_user_id vacancy_id vacancy_name resume_record_id : String) : Records :=
  if (getEntry resume_records resume_record_id).isSome then resume_records
  else
    setEntry resume_records resume_record_id
      (standard_new_resume_values bot_user_id vacancy_id vacancy_name resume_record_id)

/-! ## `services/status_validation_service.py`: stage guards -/

/-- Python truthiness of a stored JSON value (used for
`if data_from_hh:`): empty string, zero and empty containers are falsy. -/
def truthy : V → Bool
  | V.str s => !s.data.isEmpty
  | V.int n => n != 0
  | V.strs l => !l.isEmpty
  | V.obj l => !l.isEmpty

/-- `is_manager_privacy_policy_confirmed`: the record exists and its
`privacy_policy_confirmed` field equals `"yes"`. -/
def is_manager_privacy_policy_confirmed (records : Records) (bot_user_id : String) : Bool :=
  match getEntry records bot_user_id with
  | some rec =>
      if getEntry rec "privacy_policy_confirmed" = some (V.str "yes") then true else false
  | none => false

/-- `is_user_authorized`: the record exists and `access_token_recieved`
equals `"yes"`. -/
def is_user_authorized (records : Records) (record_id : String) : Bool :=
  match getEntry records record_id with
  | some rec =>
      if getEntry rec "access_token_recieved" = some (V.str "yes") then true else false
  | none => false

/-- `is_vacancy_selected`: the record exists and `vacancy_selected`
equals `"yes"`. -/
def is_vacancy_selected (records : Records) (record_id : String) : Bool :=
  match getEntry records record_id with
  | some rec =>
      if getEntry rec "vacancy_selected" = some (V.str "yes") then true else false
  | none => false

/-- `is_vacancy_description_recieved`. -/
def is_vacancy_description_recieved (records : Records) (record_id : String) : Bool :=
  match getEntry records record_id with
  | some rec =>
      if getEntry rec "vacancy_description_recieved" = some (V.str "yes") then true else false
  | none => false

/-- `is_vacancy_sourcing_criterias_recieved`. -/
def is_vacancy_sourcing_criterias_recieved (records : Records) (record_id : String) : Bool :=
  match getEntry records record_id with
  | some rec =>
      if getEntry rec "vacancy_sourcing_criterias_recieved" = some (V.str "yes") then true
      else false
  | none => false

/-- `is_hh_data_in_user_record`: `rec.get("data_from_hh")` is truthy
(`None` and the empty dictionary count as absent). -/
def is_hh_data_in_user_record (records : Records) (record_id : String) : Bool :=
  match getEntry records record_id with
  | some rec =>
      match getEntry rec "data_from_hh" with
      | some v => truthy v
      | none => false
  | none => false

/-- `is_vacany_data_enough_for_resume_analysis` (sic): conjunction of the
four upstream stage guards; the bulk sweeps use it as their
precondition. -/
def is_vacany_data_enough_for_resume_analysis (records : Records) (user_id : String) :
    Bool :=
  is_user_authorized records user_id &&
  is_vacancy_selected records user_id &&
  is_vacancy_description_recieved records user_id &&
  is_vacancy_sourcing_criterias_recieved records user_id

/-! ## `services/data_service.py`: callback decoding and the
recommendation filter -/

/-- Characters removed by Python `str.strip()`. -/
def isStripChar (c : Char) : Bool :=
  c = ' ' || c = '\t' || c = '\n' || c = '\r'

/-- Drop leading strip-characters from a character list. -/
def dropStrip : List Char → List Char
  | [] => []
  | c :: rest => if isStripChar c then dropStrip rest else c :: rest

/-- Python `str.strip()` on a character list. -/
def stripChars (cs : List Char) : List Char :=
  (dropStrip (dropStrip cs.reverse).reverse)

/-- The segment after the last `':'` of a character list
(`code.split(":")[-1]`). -/
def segmentAfterLastColon (acc : List Char) : List Char → List Char
  | [] => acc
  | c :: rest =>
      if c = ':' then segmentAfterLastColon [] rest
      else segmentAfterLastColon (acc ++ [c]) rest

/-- `get_decision_status_from_selected_callback_code`: when the code
contains a colon, return the stripped part after the last colon,
otherwise the code itself. -/
def get_decision_status_from_selected_callback_code (selected_callback_code : String) :
    String :=
  if selected_callback_code.toList.contains ':' then
    String.mk (stripChars (segmentAfterLastColon [] selected_callback_code.toList))
  else selected_callback_code

/-- `get_list_of_resume_ids_for_recommendation`: iterate the resume
records in file order and collect the ids whose record is sorted
`"passed"`, has `resume_video_received = "yes"` and
`resume_recommended = "no"`. -/
def get_list_of_resume_ids_for_recommendation : Records → List String
  | [] => []
  | (resume_id, rec) :: rest =>
      if getEntry rec "resume_sorting_status" = some (V.str "passed") then
        if getEntry rec "resume_video_received" = some (V.str "yes") then
          if getEntry rec "resume_recommended" = some (V.str "no") then
            resume_id :: get_list_of_resume_ids_for_recommendation rest
          else get_list_of_resume_ids_for_recommendation rest
        else get_list_of_resume_ids_for_recommendation rest
      else get_list_of_resume_ids_for_recommendation rest

/-! ## `manager_bot.py`: answer handlers that persist a raw yes/no
decision -/

/-- The record-updating step of `handle_answer_video_record_request`
(manager_bot.py lines 1072-1077): the decision extracted from the
callback code is persisted to `vacancy_video_record_agreed` as-is,
whatever the previous value was. -/
def handle_answer_video_record_request_update (records : Records) (bot_user_id : String)
    (selected_callback_code : String) : Records :=
  (update_user_records_with_top_level_key records bot_user_id "vacancy_video_record_agreed"
     (V.str (get_decision_status_from_selected_callback_code selected_callback_code))).1

/-- The record-updating step of `handle_answer_policy_confirmation`
(manager_bot.py lines 808-813): the raw decision is persisted to
`privacy_policy_confirmed` and the confirmation time is stamped. -/
def handle_answer_policy_confirmation_update (records : Records) (bot_user_id : String)
    (selected_callback_code current_time : String) : Records :=
  let decision := get_decision_status_from_selected_callback_code selected_callback_code
  let r1 := (update_user_records_with_top_level_key records bot_user_id
    "privacy_policy_confirmed" (V.str decision)).1
  (update_user_records_with_top_level_key r1 bot_user_id
    "privacy_policy_confirmation_time" (V.str current_time)).1

/-! ## Sample stores used by the witness theorems -/

/-- A user record whose whole funnel is complete (all stage flags
`"yes"`). -/
def sampleDoneUser : Dict :=
  setEntry (setEntry (setEntry (setEntry (setEntry (setEntry
    (standard_new_user_values "1" "t0")
    "privacy_policy_confirmed" (V.str "yes"))
    "access_token_recieved" (V.str "yes"))
    "vacancy_selected" (V.str "yes"))
    "vacancy_description_recieved" (V.str "yes"))
    "vacancy_sourcing_criterias_recieved" (V.str "yes"))
    "data_from_hh" (V.obj [("employer", OV.o [("id", Atom.s "E1")])])

/-- A two-user store: user `"1"` complete, user `"2"` fresh. -/
def sampleUsers : Records :=
  [("1", sampleDoneUser), ("2", standard_new_user_values "2" "t1")]

/-- A three-resume store: `"r1"` passed with video and not yet
recommended, `"r2"` passed without video, `"r3"` fresh. -/
def sampleResumes : Records :=
  [("r1", setEntry (setEntry (standard_new_resume_values "1" "v1" "Vac" "r1")
      "resume_sorting_status" (V.str "passed")) "resume_video_received" (V.str "yes")),
   ("r2", setEntry (standard_new_resume_values "1" "v1" "Vac" "r2")
      "resume_sorting_status" (V.str "passed")),
   ("r3", standard_new_resume_values "1" "v1" "Vac" "r3")]

/-- Convenience projection: the value of one top-level field of one
record in a store (`records[record_id][key]`, `none` when either level
is absent). -/
def recordField (records : Records) (record_id key : String) : Option V :=
  (getEntry records record_id).bind (fun rec => getEntry rec key)

/-- A one-user store whose user has already agreed to record the welcome
video (`vacancy_video_record_agreed = "yes"`). -/
def sampleVideoYesUsers : Records :=
  [("1", setEntry sampleDoneUser "vacancy_video_record_agreed" (V.str "yes"))]

/-! ## `manager_bot.py`: admin bulk sweeps (`admin_update_negotiations_for_all_command`,
`admin_anazlyze_resumes_for_all_command`, ...) -/

/-- The `for user_id in user_ids` loop shared by the admin bulk sweeps:
each eligible subject's body runs inside the single `try` block that
wraps the whole loop, so an exception (`Except.error`) jumps to the
sweep-level `except` handler. Returns the subjects for which the body
was invoked, paired with the failing subject when the loop was aborted
by an exception. -/
def admin_sweep_loop (precond : String → Bool) (body : String → Except String Unit) :
    List String → List String × Option String
  | [] => ([], none)
  | u :: rest =>
      if precond u then
        match body u with
        | Except.ok _ =>
            let r := admin_sweep_loop precond body rest
            (u :: r.1, r.2)
        | Except.error _ => ([u], some u)
      else admin_sweep_loop precond body rest

/-- A sweep precondition that holds for every subject. -/
def alwaysEligible : String → Bool := fun _ => true

/-- A per-subject body that raises exactly on one subject. -/
def sweepBodyFailingOn (bad : String) : String → Except String Unit :=
  fun u => if u = bad then Except.error "boom" else Except.ok ()

/-! ## StateStore concurrency model (C2)

Both updaters are whole-file read-modify-write: read the records JSON,
mutate it, write the whole file back. They are synchronous Python
functions with no `await` inside, so the asyncio event loop that runs
every interactive handler, bulk sweep and queue worker of the bot cannot
preempt one in the middle: each update's read and write are adjacent in
any schedule. We model the file as shared state, a call as a read step
followed by a write step over its private snapshot, and prove that every
schedule in which each call's two steps are adjacent is equivalent to
running the mutators serially in schedule order. -/

/-- One micro step of caller `i`: read the whole records file into a
private snapshot, or write back the mutated snapshot. -/
inductive MicroStep where
  | readFile (i : Nat)
  | writeFile (i : Nat)
  deriving DecidableEq, Repr

/-- Shared execution state: the records file plus each caller's private
snapshot (populated by its read). -/
structure FileExec where
  file : Records
  snaps : Nat → Option Records

/-- Semantics of one micro step, where `mut i` is caller `i`'s
read-modify-write body (the whole-file transformation it performs
between reading and writing). -/
def stepExec (f : Nat → Records → Records) (st : FileExec) : MicroStep → FileExec
  | MicroStep.readFile i =>
      { st with snaps := fun j => if j = i then some st.file else st.snaps j }
  | MicroStep.writeFile i =>
      match st.snaps i with
      | some snap => { st with file := f i snap }
      | none => st

/-- Run a schedule of micro steps. -/
def runSteps (f : Nat → Records → Records) (st : FileExec) : List MicroStep → FileExec
  | [] => st
  | s :: rest => runSteps f (stepExec f st s) rest

/-- The schedules the single-threaded event loop can actually produce:
each caller's read is immediately followed by its write. -/
def atomicSchedule : List Nat → List MicroStep
  | [] => []
  | i :: rest => MicroStep.readFile i :: MicroStep.writeFile i :: atomicSchedule rest

/-- Serial application of the callers' mutators in a given order. -/
def runSerial (f : Nat → Records → Records) (file : Records) : List Nat → Records
  | [] => file
  | i :: rest => runSerial f (f i file) rest

/-- The mutator of caller `i` when every caller performs one
`update_user_records_with_top_level_key` with its own record id, key and
value. -/
def updateOpMut (ops : Nat → String × String × V) : Nat → Records → Records :=
  fun i records =>
    (update_user_records_with_top_level_key records (ops i).1 (ops i).2.1 (ops i).2.2).1

/-- Concrete pair of concurrent update calls used by the C2 witness. -/
def sampleOps : Nat → String × String × V :=
  fun i => if i = 0 then ("1", "username", V.str "A") else ("1", "first_name", V.str "B")

/-! ## `manager_bot.py`: the authorization / vacancy-selection flow

`hh_authorization_command`, `pull_user_data_from_hh_command` and
`select_vacancy_command` are embedded as pure functions from the user
records to (new records, trace of external actions). External
collaborators are an explicit environment: the callback endpoint
healthcheck, the per-attempt answer of `get_token_by_state` (from the
`services/auth_service.py` module, which is not part of the sources;
modelled from the spec as an oracle that per attempt returns no
response, the records-not-ready marker that manager_bot.py line 887
compares against, or a token payload), the outcome of
`get_user_info_from_hh` + `clean_user_info_received_from_hh`, and the
outcome of `get_employer_vacancies_from_hh` +
`filter_open_employer_vacancies` + option building. -/

/-- A non-`None` response of `get_token_by_state`: the
records-not-ready marker (`CALLBACK_ENDPOINT_RESPONSE_WHEN_RECORDS_NOT_READY`)
or a payload dictionary carrying optional `access_token` and
`expires_at`. -/
inductive TokenResp where
  | notReady
  | payload (access_token : Option String) (expires_at : Option Int)
  deriving DecidableEq, Repr

/-- Messages sent to the user by the flow (identified by the constant
they render). -/
inductive Msg where
  | missingPrivacy
  | hhAuthSuccess
  | endpointDown
  | authRequest
  | waitingAuth
  | authSuccess
  | authFailed
  | selectVacancySuccess
  | failedVacancies
  | askVacancy
  deriving DecidableEq, Repr

/-- External side effects performed by the flow. -/
inductive Action where
  | sendUser (m : Msg)
  | notifyAdmin
  | healthcheck
  | pollToken (attempt : Nat)
  | fetchUserInfo
  | fetchVacancies
  deriving DecidableEq, Repr

/-- The external world of the authorization flow. -/
structure AuthEnv where
  healthOk : Bool
  tokenResp : Nat → Option TokenResp
  cleanedUserInfo : Option (List (String × OV))
  openVacancyOptions : Option (List (String × String))

/-- `get_employer_id_from_records` from `services/data_service.py`:
`records[record_id]["data_from_hh"]["employer"]["id"]` when the record
exists (a missing level, which raises KeyError in the source and is
caught by the calling command's `except`, is collapsed into `none`
here). -/
def get_employer_id_from_records (records : Records) (record_id : String) : Option String :=
  match getEntry records record_id with
  | some rec =>
      match getEntry rec "data_from_hh" with
      | some (V.obj d) =>
          match getEntry d "employer" with
          | some (OV.o e) =>
              match getEntry e "id" with
              | some (Atom.s s) => some s
              | _ => none
          | _ => none
      | _ => none
  | none => none

/-- `select_vacancy_command` (manager_bot.py lines 1214-1290), records
effect and action trace: stop on missing privacy consent; stop with the
success text when a vacancy is already selected; otherwise look up the
employer id, fetch and filter the open vacancies, and either report
failure (notifying the admin, as the raised ValueError is caught by the
command's own `except`) or ask the user to pick a vacancy. No branch
writes to the records. -/
def select_vacancy_command (env : AuthEnv) (records : Records) (uid : String) :
    Records × List Action :=
  if is_manager_privacy_policy_confirmed records uid = false then
    (records, [Action.sendUser Msg.missingPrivacy])
  else if is_vacancy_selected records uid = true then
    (records, [Action.sendUser Msg.selectVacancySuccess])
  else
    match get_employer_id_from_records records uid with
    | none => (records, [Action.sendUser Msg.failedVacancies, Action.notifyAdmin])
    | some eid =>
        if eid.data.isEmpty then
          (records, [Action.sendUser Msg.failedVacancies, Action.notifyAdmin])
        else
          match env.openVacancyOptions with
          | none =>
              (records, [Action.fetchVacancies, Action.sendUser Msg.failedVacancies,
                Action.notifyAdmin])
          | some [] =>
              (records, [Action.fetchVacancies, Action.sendUser Msg.failedVacancies,
                Action.notifyAdmin])
          | some (_ :: _) =>
              (records, [Action.fetchVacancies, Action.sendUser Msg.askVacancy])

/-- `pull_user_data_from_hh_command` (manager_bot.py lines 915-960):
skip when HH data is already in the record; otherwise fetch and clean
the user info (a failed fetch or a cleaning KeyError is caught by the
command's `except`, leaving the records untouched and notifying the
admin), store it under `data_from_hh`, and continue with
`select_vacancy_command`. -/
def pull_user_data_from_hh_command (env : AuthEnv) (records : Records) (uid : String) :
    Records × List Action :=
  if is_hh_data_in_user_record records uid = true then (records, [])
  else
    match env.cleanedUserInfo with
    | some info =>
        ((select_vacancy_command env
            (update_user_records_with_top_level_key records uid "data_from_hh"
              (V.obj info)).1 uid).1,
          Action.fetchUserInfo ::
            (select_vacancy_command env
              (update_user_records_with_top_level_key records uid "data_from_hh"
                (V.obj info)).1 uid).2)
    | none => (records, [Action.fetchUserInfo, Action.notifyAdmin])

/-- The conditional record writes of the successful-poll branch
(manager_bot.py lines 890-894): the three token fields are written only
when both `access_token` and `expires_at` are present in the payload. -/
def authTokenWrites (records : Records) (uid : String) :
    Option String → Option Int → Records
  | some t, some e =>
      (update_user_records_with_top_level_key
        (update_user_records_with_top_level_key
          (update_user_records_with_top_level_key records uid
            "access_token_recieved" (V.str "yes")).1 uid
          "access_token" (V.str t)).1 uid
        "access_token_expires_at" (V.int e)).1
  | _, _ => records

/-- The polling for-loop of `hh_authorization_command` (lines 880-909):
up to `fuel` attempts starting at `attempt`; a `None` response or the
not-ready marker continues the loop (retaining the response as the last
`endpoint_response`), a payload response performs the token writes,
sends the success text, runs `pull_user_data_from_hh_command` and
breaks. Returns (records, action trace, last `endpoint_response`). -/
def authPollLoop (env : AuthEnv) (uid : String) (records : Records) :
    Nat → Nat → Option TokenResp → Records × List Action × Option TokenResp
  | _, 0, last => (records, [], last)
  | attempt, fuel + 1, _ =>
      match env.tokenResp attempt with
      | none =>
          ((authPollLoop env uid records (attempt + 1) fuel none).1,
            Action.pollToken attempt ::
              (authPollLoop env uid records (attempt + 1) fuel none).2.1,
            (authPollLoop env uid records (attempt + 1) fuel none).2.2)
      | some TokenResp.notReady =>
          ((authPollLoop env uid records (attempt + 1) fuel
              (some TokenResp.notReady)).1,
            Action.pollToken attempt ::
              (authPollLoop env uid records (attempt + 1) fuel
                (some TokenResp.notReady)).2.1,
            (authPollLoop env uid records (attempt + 1) fuel
              (some TokenResp.notReady)).2.2)
      | some (TokenResp.payload tok exp) =>
          ((pull_user_data_from_hh_command env (authTokenWrites records uid tok exp) uid).1,
            Action.pollToken attempt :: Action.sendUser Msg.authSuccess ::
              (pull_user_data_from_hh_command env
                (authTokenWrites records uid tok exp) uid).2,
            some (TokenResp.payload tok exp))

/-- The first attempt in the window `[attempt, attempt + fuel)` whose
endpoint response is a payload (not `None`, not the not-ready marker):
the attempt at which the loop breaks. -/
def firstPayload (env : AuthEnv) : Nat → Nat → Option (Nat × Option String × Option Int)
  | _, 0 => none
  | attempt, fuel + 1 =>
      match env.tokenResp attempt with
      | some (TokenResp.payload tok exp) => some (attempt, tok, exp)
      | _ => firstPayload env (attempt + 1) fuel

/-- `hh_authorization_command` (manager_bot.py lines 831-909): stop on
missing privacy consent; stop with the success text when already
authorized; stop when the callback endpoint healthcheck fails; otherwise
send the OAuth link, wait, and poll `get_token_by_state` up to 30 times
with a fixed 6-second interval, reporting failure only when the last
`endpoint_response` is `None`. -/
def hh_authorization_command (env : AuthEnv) (records : Records) (uid : String) :
    Records × List Action :=
  if is_manager_privacy_policy_confirmed records uid = false then
    (records, [Action.sendUser Msg.missingPrivacy])
  else if is_user_authorized records uid = true then
    (records, [Action.sendUser Msg.hhAuthSuccess])
  else if env.healthOk = false then
    (records, [Action.healthcheck, Action.sendUser Msg.endpointDown, Action.notifyAdmin])
  else
    ((authPollLoop env uid records 1 30 none).1,
      Action.healthcheck :: Action.sendUser Msg.authRequest ::
        Action.sendUser Msg.waitingAuth ::
        ((authPollLoop env uid records 1 30 none).2.1 ++
          (match (authPollLoop env uid records 1 30 none).2.2 with
           | none => [Action.sendUser Msg.authFailed]
           | some _ => [])))

/-- Test for a poll action. -/
def isPollAction : Action → Bool
  | Action.pollToken _ => true
  | _ => false

/-- Number of poll attempts recorded in an action trace. -/
def countPolls (acts : List Action) : Nat := acts.countP isPollAction

/-- A one-user store with privacy consent given and nothing else done. -/
def sampleConsentUsers : Records :=
  [("1", setEntry (standard_new_user_values "1" "t0") "privacy_policy_confirmed"
      (V.str "yes"))]

/-- Environment whose endpoint always answers with the records-not-ready
marker. -/
def envAllNotReady : AuthEnv :=
  { healthOk := true, tokenResp := fun _ => some TokenResp.notReady,
    cleanedUserInfo := none, openVacancyOptions := none }

/-- Environment whose endpoint never answers. -/
def envAllNone : AuthEnv :=
  { healthOk := true, tokenResp := fun _ => none,
    cleanedUserInfo := none, openVacancyOptions := none }

/-- Environment in which authorization succeeds on the first poll and
the HH lookups succeed. -/
def envQuickSuccess : AuthEnv :=
  { healthOk := true,
    tokenResp := fun n =>
      if n = 1 then some (TokenResp.payload (some "TOK") (some 99)) else none,
    cleanedUserInfo := some [("employer", OV.o [("id", Atom.s "E1")])],
    openVacancyOptions := some [("Vac One", "v1")] }

/-! ## `manager_bot.py`: the background resume-analysis job -/

/-- Location of one resume's JSON file among the `new` / `passed` /
`failed` subdirectories of the vacancy's `resumes` directory. -/
inductive FileLoc where
  | inNew
  | inPassed
  | inFailed
  deriving DecidableEq, Repr

/-- State touched by the resume pipeline of one user and vacancy: the
resume records file, and where each resume's JSON file currently sits. -/
structure ResumeState where
  records : Records
  loc : List (String × FileLoc)
  deriving DecidableEq, Repr

/-- External world of one `resume_analysis_from_ai_to_user_sort_resume`
job: the outcome of the AI call (`none` models
`analyze_resume_with_ai` raising), and injected failures for the later
steps that perform I/O and can raise at run time —
`send_message_to_applicant_command` and `change_employer_state_command`
read records files and call the HH API, `shutil.move` touches the file
system. -/
structure TaskEnv where
  aiResult : Option (List (String × OV))
  sendRaises : Bool
  changeStateRaises : Bool
  moveRaises : Bool
  deriving DecidableEq, Repr

/-- Digit accumulator backing `strToInt?`. -/
def digitsToNat : List Char → Nat → Option Nat
  | [], acc => some acc
  | c :: rest, acc =>
      if c.isDigit then digitsToNat rest (acc * 10 + (c.toNat - '0'.toNat)) else none

/-- Python `int(...)` on a string: an optional sign followed by digits,
anything else raises (`none`). -/
def strToInt? (s : String) : Option Int :=
  match s.toList with
  | [] => none
  | '-' :: rest =>
      (if rest.isEmpty then none else digitsToNat rest 0).map (fun n => -(n : Int))
  | cs => (digitsToNat cs 0).map (fun n => (n : Int))

/-- `int(ai_analysis_result.get("final_score", 0))`: a missing key
defaults to 0, an integer passes through, a numeric string is parsed,
anything else raises (`none`). -/
def parseFinalScore (ai : List (String × OV)) : Option Int :=
  match getEntry ai "final_score" with
  | none => some 0
  | some (OV.a (Atom.i n)) => some n
  | some (OV.a (Atom.s s)) => strToInt? s
  | some (OV.o _) => none

/-- `resume_analysis_from_ai_to_user_sort_resume` (manager_bot.py lines
1814-1875) as one state transition. The whole body runs inside one
`try`: a raise at any point falls to the final `except`, which only
logs — whatever was already written stays written. Steps in source
order: call the AI; write the `ai_analysis` payload to the resume
record; send the outreach message; change the employer state; parse
`final_score`; `shutil.move` the resume JSON out of `new` (which raises
when the file is not there, e.g. a duplicate of an already-sorted job,
or when the injected move failure fires); finally write
`resume_sorting_status` as `"passed"` or `"failed"`. -/
def resume_analysis_from_ai_to_user_sort_resume (passedScore : Int) (env : TaskEnv)
    (resume_id : String) (st : ResumeState) : ResumeState :=
  match env.aiResult with
  | none => st
  | some ai =>
      match update_resume_record_with_top_level_key st.records resume_id "ai_analysis"
          (V.obj ai) with
      | Except.error _ => st
      | Except.ok r1 =>
          if env.sendRaises then { st with records := r1 }
          else if env.changeStateRaises then { st with records := r1 }
          else
            match parseFinalScore ai with
            | none => { st with records := r1 }
            | some score =>
                if passedScore ≤ score then
                  if getEntry st.loc resume_id = some FileLoc.inNew ∧
                      env.moveRaises = false then
                    match update_resume_record_with_top_level_key r1 resume_id
                        "resume_sorting_status" (V.str "passed") with
                    | Except.ok r2 =>
                        { records := r2,
                          loc := setEntry st.loc resume_id FileLoc.inPassed }
                    | Except.error _ =>
                        { records := r1,
                          loc := setEntry st.loc resume_id FileLoc.inPassed }
                  else { st with records := r1 }
                else
                  if getEntry st.loc resume_id = some FileLoc.inNew ∧
                      env.moveRaises = false then
                    match update_resume_record_with_top_level_key r1 resume_id
                        "resume_sorting_status" (V.str "failed") with
                    | Except.ok r2 =>
                        { records := r2,
                          loc := setEntry st.loc resume_id FileLoc.inFailed }
                    | Except.error _ =>
                        { records := r1,
                          loc := setEntry st.loc resume_id FileLoc.inFailed }
                  else { st with records := r1 }

/-- The operations of the source that touch a resume record or its
file:
* `sourceResume` — the per-fresh-id tail of
  `source_resumes_triggered_by_admin_command`: download the resume JSON
  into `new` and create the standard record (both happen only for ids
  absent from the records);
* `updateField` — any call of `update_resume_record_with_top_level_key`
  outside the analysis job (contact enrichment, outreach flag, video
  status and path); grep of the source shows none of these call sites
  uses the key `resume_sorting_status`, which the claim theorem carries
  as a side condition;
* `runTask` — one run of the queued analysis job. -/
inductive ResumeOp where
  | sourceResume (bot_user_id vacancy_id vacancy_name resume_id : String)
  | updateField (resume_id key : String) (value : V)
  | runTask (passedScore : Int) (env : TaskEnv) (resume_id : String)

/-- Apply one pipeline operation to the resume state. -/
def applyResumeOp (st : ResumeState) : ResumeOp → ResumeState
  | ResumeOp.sourceResume b v vn rid =>
      if (getEntry st.records rid).isSome then st
      else
        { records := create_record_for_new_resume_id_in_resume_records st.records b v vn
            rid,
          loc := setEntry st.loc rid FileLoc.inNew }
  | ResumeOp.updateField rid key value =>
      match update_resume_record_with_top_level_key st.records rid key value with
      | Except.ok r => { st with records := r }
      | Except.error _ => st
  | ResumeOp.runTask p env rid => resume_analysis_from_ai_to_user_sort_resume p env rid st

/-- An operation of the source never writes `resume_sorting_status`
through the generic field updater: the only call sites with that key
are inside the analysis job (manager_bot.py lines 1855-1870). -/
def statusSafeOp : ResumeOp → Prop
  | ResumeOp.updateField _ key _ => key ≠ "resume_sorting_status"
  | _ => True

/-- The sorting status of one resume in a state. -/
def statusOf (st : ResumeState) (rid : String) : Option V :=
  recordField st.records rid "resume_sorting_status"

/-- Inductive invariant of the resume pipeline for one resume id: the
status is `"new"`, `"passed"` or `"failed"` (or the record does not
exist yet), and a sorted resume's file is no longer in the `new`
directory. -/
def ResumeInv (st : ResumeState) (rid : String) : Prop :=
  (getEntry st.records rid = none ∨ statusOf st rid = some (V.str "new") ∨
    statusOf st rid = some (V.str "passed") ∨ statusOf st rid = some (V.str "failed")) ∧
  ((statusOf st rid = some (V.str "passed") ∨ statusOf st rid = some (V.str "failed")) →
    getEntry st.loc rid ≠ some FileLoc.inNew)

/-- Apply a sequence of pipeline operations in order. -/
def applyResumeOps (st : ResumeState) (ops : List ResumeOp) : ResumeState :=
  ops.foldl applyResumeOp st

/-- What one pipeline step may do to the sorting status of resume `rid`:
the invariant is preserved; a status that is already `"passed"` or
`"failed"` never changes; and any status change is either the creation
transition (record absent, status becomes `"new"`) or the one-shot
sorting transition (`"new"` to `"passed"` or `"failed"`). -/
def StatusStepOk (st st' : ResumeState) (rid : String) : Prop :=
  ResumeInv st' rid ∧
  ((statusOf st rid = some (V.str "passed") ∨
      statusOf st rid = some (V.str "failed")) →
    statusOf st' rid = statusOf st rid) ∧
  (statusOf st' rid ≠ statusOf st rid →
    (getEntry st.records rid = none ∧ statusOf st' rid = some (V.str "new")) ∨
    (statusOf st rid = some (V.str "new") ∧
      (statusOf st' rid = some (V.str "passed") ∨
       statusOf st' rid = some (V.str "failed"))))

/-- A job environment whose AI call raises. -/
def envAiFails : TaskEnv :=
  { aiResult := none, sendRaises := false, changeStateRaises := false,
    moveRaises := false }

/-- A one-resume store holding only the fresh resume `"r3"`. -/
def sampleTaskRecords : Records :=
  [("r3", standard_new_resume_values "1" "v1" "Vac" "r3")]

/-- Task state for `"r3"`: record fresh, file in `new`. -/
def sampleTaskState : ResumeState :=
  { records := sampleTaskRecords, loc := [("r3", FileLoc.inNew)] }

/-- A job environment whose AI call succeeds with score 9 but whose
message-sending step raises. -/
def envSendRaises : TaskEnv :=
  { aiResult := some [("final_score", OV.a (Atom.i 9))], sendRaises := true,
    changeStateRaises := false, moveRaises := false }

/-- A job environment in which every step succeeds (score 9). -/
def envTaskOk : TaskEnv :=
  { aiResult := some [("final_score", OV.a (Atom.i 9))], sendRaises := false,
    changeStateRaises := false, moveRaises := false }

/-! # Theorems -/

@[simp]
theorem getEntry_nil {α : Type} (k : String) :
    getEntry ([] : List (String × α)) k = none := rfl

theorem getEntry_cons {α : Type} (k' k : String) (v' : α) (rest : List (String × α)) :
    getEntry ((k', v') :: rest) k =
      if k' = k then some v' else getEntry rest k := rfl

@[simp]
theorem getEntry_setEntry_self {α : Type} (m : List (String × α)) (k : String) (v : α) :
    getEntry (setEntry m k v) k = some v := by
  induction m with
  | nil => simp [setEntry, getEntry]
  | cons hd tl ih =>
      obtain ⟨k', v'⟩ := hd
      by_cases h : k' = k
      · simp [setEntry, getEntry, h]
      · simp [setEntry, getEntry, h, ih]

theorem getEntry_setEntry_ne {α : Type} (m : List (String × α)) (k k' : String) (v : α)
    (h : k' ≠ k) : getEntry (setEntry m k v) k' = getEntry m k' := by
  have h' : ¬ k = k' := fun hh => h hh.symm
  induction m with
  | nil => simp [setEntry, getEntry, h']
  | cons hd tl ih =>
      obtain ⟨k₀, v₀⟩ := hd
      by_cases hk : k₀ = k
      · subst hk
        simp [setEntry, getEntry, h']
      · simp [setEntry, getEntry, hk, ih]

theorem setEntry_setEntry_self {α : Type} (m : List (String × α)) (k : String) (v w : α) :
    setEntry (setEntry m k v) k w = setEntry m k w := by
  induction m with
  | nil => simp [setEntry]
  | cons hd tl ih =>
      obtain ⟨k', v'⟩ := hd
      by_cases h : k' = k
      · simp [setEntry, h]
      · simp [setEntry, h, ih]

theorem isSome_getEntry_setEntry {α : Type} (m : List (String × α)) (k k' : String) (v : α) :
    (getEntry (setEntry m k v) k').isSome = ((getEntry m k').isSome || (k' == k)) := by
  by_cases h : k' = k
  · subst h; simp
  · rw [getEntry_setEntry_ne m k k' v h]
    simp [h]

theorem update_user_records_found (records : Records) (record_id key : String) (value : V)
    (rec : Dict) (h : getEntry records record_id = some rec) :
    update_user_records_with_top_level_key records record_id key value =
      (setEntry records record_id (setEntry rec key value), UpdateOutcome.updated) := by
  simp [update_user_records_with_top_level_key, h]

theorem update_user_records_missing (records : Records) (record_id key : String) (value : V)
    (h : getEntry records record_id = none) :
    update_user_records_with_top_level_key records record_id key value =
      (records, UpdateOutcome.skippedMissing) := by
  simp [update_user_records_with_top_level_key, h]

theorem getEntry_eq_some_iff_mem {α : Type} (l : List (String × α)) (k : String) (v : α)
    (hnd : (l.map Prod.fst).Nodup) :
    getEntry l k = some v ↔ (k, v) ∈ l := by
  induction l with
  | nil => simp
  | cons hd tl ih =>
      obtain ⟨k', v'⟩ := hd
      rw [List.map_cons, List.nodup_cons] at hnd
      by_cases h : k' = k
      · subst h
        constructor
        · intro hg
          rw [getEntry_cons, if_pos rfl, Option.some.injEq] at hg
          subst hg
          exact List.mem_cons_self _ _
        · intro hm
          rcases List.mem_cons.mp hm with h1 | h2
          · rw [getEntry_cons, if_pos rfl]
            obtain ⟨-, h1v⟩ := Prod.mk.injEq .. ▸ h1
            rw [h1v]
          · exact absurd (List.mem_map_of_mem Prod.fst h2) hnd.1
      · rw [getEntry_cons, if_neg h]
        constructor
        · intro hg
          exact List.mem_cons_of_mem _ ((ih hnd.2).mp hg)
        · intro hm
          rcases List.mem_cons.mp hm with h1 | h2
          · obtain ⟨h1k, -⟩ := Prod.mk.injEq .. ▸ h1
            exact absurd h1k.symm h
          · exact (ih hnd.2).mpr h2

theorem mem_recommendation_iff (resume_records : Records) (resume_id : String) :
    resume_id ∈ get_list_of_resume_ids_for_recommendation resume_records ↔
      ∃ rec : Dict, (resume_id, rec) ∈ resume_records ∧
        getEntry rec "resume_sorting_status" = some (V.str "passed") ∧
        getEntry rec "resume_video_received" = some (V.str "yes") ∧
        getEntry rec "resume_recommended" = some (V.str "no") := by
  induction resume_records with
  | nil => simp [get_list_of_resume_ids_for_recommendation]
  | cons hd tl ih =>
      obtain ⟨rid, rec⟩ := hd
      by_cases h1 : getEntry rec "resume_sorting_status" = some (V.str "passed")
      · by_cases h2 : getEntry rec "resume_video_received" = some (V.str "yes")
        · by_cases h3 : getEntry rec "resume_recommended" = some (V.str "no")
          · rw [get_list_of_resume_ids_for_recommendation, if_pos h1, if_pos h2, if_pos h3]
            constructor
            · intro hm
              rcases List.mem_cons.mp hm with hEq | hTl
              · subst hEq
                exact ⟨rec, List.mem_cons_self _ _, h1, h2, h3⟩
              · obtain ⟨r, hr, hc⟩ := ih.mp hTl
                exact ⟨r, List.mem_cons_of_mem _ hr, hc⟩
            · intro ⟨r, hr, hc⟩
              rcases List.mem_cons.mp hr with hEq | hTl
              · obtain ⟨hk, -⟩ := Prod.mk.injEq .. ▸ hEq
                exact hk ▸ List.mem_cons_self _ _
              · exact List.mem_cons_of_mem _ (ih.mpr ⟨r, hTl, hc⟩)
          · rw [get_list_of_resume_ids_for_recommendation, if_pos h1, if_pos h2, if_neg h3]
            rw [ih]
            constructor
            · intro ⟨r, hr, hc⟩
              exact ⟨r, List.mem_cons_of_mem _ hr, hc⟩
            · intro ⟨r, hr, hc⟩
              rcases List.mem_cons.mp hr with hEq | hTl
              · obtain ⟨-, hv⟩ := Prod.mk.injEq .. ▸ hEq
                exact absurd (hv ▸ hc.2.2) h3
              · exact ⟨r, hTl, hc⟩
        · rw [get_list_of_resume_ids_for_recommendation, if_pos h1, if_neg h2]
          rw [ih]
          constructor
          · intro ⟨r, hr, hc⟩
            exact ⟨r, List.mem_cons_of_mem _ hr, hc⟩
          · intro ⟨r, hr, hc⟩
            rcases List.mem_cons.mp hr with hEq | hTl
            · obtain ⟨-, hv⟩ := Prod.mk.injEq .. ▸ hEq
              exact absurd (hv ▸ hc.2.1) h2
            · exact ⟨r, hTl, hc⟩
      · rw [get_list_of_resume_ids_for_recommendation, if_neg h1]
        rw [ih]
        constructor
        · intro ⟨r, hr, hc⟩
          exact ⟨r, List.mem_cons_of_mem _ hr, hc⟩
        · intro ⟨r, hr, hc⟩
          rcases List.mem_cons.mp hr with hEq | hTl
          · obtain ⟨-, hv⟩ := Prod.mk.injEq .. ▸ hEq
            exact absurd (hv ▸ hc.1) h1
          · exact ⟨r, hTl, hc⟩

/-- C6: a records update on a key that is absent from the store is a
no-op signalling not-found: the user-records updater returns the store
unchanged with the skip outcome, the resume-records updater raises, and
no record is implicitly created by the update. -/
theorem C6_update_on_missing_key_is_noop (records : Records) (record_id key : String)
    (value : V) (h : getEntry records record_id = none) :
    update_user_records_with_top_level_key records record_id key value =
      (records, UpdateOutcome.skippedMissing) ∧
    update_resume_record_with_top_level_key records record_id key value =
      Except.error "Resume record does not exist in the file" ∧
    getEntry (update_user_records_with_top_level_key records record_id key value).1
      record_id = none := by
  refine ⟨update_user_records_missing _ _ _ _ h, ?_, ?_⟩
  · simp [update_resume_record_with_top_level_key, h]
  · rw [update_user_records_missing _ _ _ _ h]
    exact h

/-- Witness for C6 at a concrete store: id `"99"` is absent from
`sampleUsers`. -/
theorem C6_update_on_missing_key_is_noop_witness :
    getEntry sampleUsers "99" = none ∧
    update_user_records_with_top_level_key sampleUsers "99" "vacancy_selected"
      (V.str "yes") = (sampleUsers, UpdateOutcome.skippedMissing) ∧
    update_resume_record_with_top_level_key sampleUsers "99" "vacancy_selected"
      (V.str "yes") = Except.error "Resume record does not exist in the file" := by
  have h : getEntry sampleUsers "99" = none := by decide
  have c := C6_update_on_missing_key_is_noop sampleUsers "99" "vacancy_selected"
    (V.str "yes") h
  exact ⟨h, c.1, c.2.1⟩

/-- C7: updating one top-level key of an existing record is a merge at
the top level — the supplied key gets the new value, every other
top-level field of that record keeps its value, and every other record
in the store is untouched. -/
theorem C7_update_user_records_frame (records : Records) (record_id key : String)
    (value : V) (rec : Dict) (h : getEntry records record_id = some rec) :
    getEntry (update_user_records_with_top_level_key records record_id key value).1
      record_id = some (setEntry rec key value) ∧
    getEntry (setEntry rec key value) key = some value ∧
    (∀ k' : String, k' ≠ key → getEntry (setEntry rec key value) k' = getEntry rec k') ∧
    (∀ rid' : String, rid' ≠ record_id →
      getEntry (update_user_records_with_top_level_key records record_id key value).1 rid' =
        getEntry records rid') := by
  rw [update_user_records_found records record_id key value rec h]
  exact ⟨getEntry_setEntry_self _ _ _, getEntry_setEntry_self _ _ _,
    fun k' hk => getEntry_setEntry_ne _ _ _ _ hk,
    fun rid' hr => getEntry_setEntry_ne _ _ _ _ hr⟩

/-- Witness for C7 at a concrete store: updating `vacancy_selected` of
user `"2"` leaves the privacy flag of `"2"` and the whole record of
`"1"` unchanged. -/
theorem C7_update_user_records_frame_witness :
    getEntry (update_user_records_with_top_level_key sampleUsers "2" "vacancy_selected"
        (V.str "yes")).1 "2" =
      some (setEntry (standard_new_user_values "2" "t1") "vacancy_selected" (V.str "yes")) ∧
    getEntry (setEntry (standard_new_user_values "2" "t1") "vacancy_selected" (V.str "yes"))
      "privacy_policy_confirmed" =
      getEntry (standard_new_user_values "2" "t1") "privacy_policy_confirmed" ∧
    getEntry (update_user_records_with_top_level_key sampleUsers "2" "vacancy_selected"
        (V.str "yes")).1 "1" = getEntry sampleUsers "1" := by
  have h : getEntry sampleUsers "2" = some (standard_new_user_values "2" "t1") := by decide
  have c := C7_update_user_records_frame sampleUsers "2" "vacancy_selected"
    (V.str "yes") (standard_new_user_values "2" "t1") h
  exact ⟨c.1, c.2.2.1 "privacy_policy_confirmed" (by decide), c.2.2.2 "1" (by decide)⟩

/-- C10: the recommendation list contains exactly the resume ids whose
record is sorted `"passed"`, has a received video, and is not yet
recommended. -/
theorem C10_recommendation_list_exact (resume_records : Records) (resume_id : String)
    (hnd : (resume_records.map Prod.fst).Nodup) :
    resume_id ∈ get_list_of_resume_ids_for_recommendation resume_records ↔
      ∃ rec : Dict, getEntry resume_records resume_id = some rec ∧
        getEntry rec "resume_sorting_status" = some (V.str "passed") ∧
        getEntry rec "resume_video_received" = some (V.str "yes") ∧
        getEntry rec "resume_recommended" = some (V.str "no") := by
  rw [mem_recommendation_iff]
  constructor
  · intro ⟨r, hr, hc⟩
    exact ⟨r, (getEntry_eq_some_iff_mem _ _ _ hnd).mpr hr, hc⟩
  · intro ⟨r, hr, hc⟩
    exact ⟨r, (getEntry_eq_some_iff_mem _ _ _ hnd).mp hr, hc⟩

/-- Witness for C10 at a concrete store: `"r1"` (passed, video, not
recommended) is selected; `"r2"` (no video) and `"r3"` (fresh) are
not. -/
theorem C10_recommendation_list_exact_witness :
    "r1" ∈ get_list_of_resume_ids_for_recommendation sampleResumes ∧
    "r2" ∉ get_list_of_resume_ids_for_recommendation sampleResumes ∧
    "r3" ∉ get_list_of_resume_ids_for_recommendation sampleResumes := by
  have c := C10_recommendation_list_exact sampleResumes "r1" (by decide)
  refine ⟨c.mpr ?_, by decide, by decide⟩
  exact ⟨setEntry (setEntry (standard_new_resume_values "1" "v1" "Vac" "r1")
      "resume_sorting_status" (V.str "passed")) "resume_video_received" (V.str "yes"),
    by decide, by decide, by decide, by decide⟩

theorem recordField_update_other (records : Records) (rid k rid' k' : String) (v' : V)
    (h : rid' ≠ rid ∨ k' ≠ k) :
    recordField (update_user_records_with_top_level_key records rid' k' v').1 rid k =
      recordField records rid k := by
  match hg : getEntry records rid' with
  | none => rw [update_user_records_missing _ _ _ _ hg]
  | some rec' =>
      rw [update_user_records_found _ _ _ _ _ hg]
      by_cases hr : rid' = rid
      · subst hr
        have hk : k' ≠ k := h.resolve_left (fun hh => hh rfl)
        simp only [recordField, getEntry_setEntry_self, hg, Option.some_bind]
        exact getEntry_setEntry_ne _ _ _ _ (fun hh => hk hh.symm)
      · simp only [recordField]
        rw [getEntry_setEntry_ne _ _ _ _ (fun hh => hr hh.symm)]

theorem isSome_update_mono (records : Records) (rid rid' k' : String) (v' : V)
    (h : (getEntry records rid).isSome = true) :
    (getEntry (update_user_records_with_top_level_key records rid' k' v').1 rid).isSome =
      true := by
  match hg : getEntry records rid' with
  | none => rw [update_user_records_missing _ _ _ _ hg]; exact h
  | some rec' =>
      rw [update_user_records_found _ _ _ _ _ hg]
      rw [isSome_getEntry_setEntry, h, Bool.true_or]

theorem isSome_runSerial_mono (ops : Nat → String × String × V) (file : Records)
    (order : List Nat) (rid : String) (h : (getEntry file rid).isSome = true) :
    (getEntry (runSerial (updateOpMut ops) file order) rid).isSome = true := by
  induction order generalizing file with
  | nil => exact h
  | cons i rest ih =>
      rw [runSerial]
      exact ih _ (isSome_update_mono _ _ _ _ _ h)

theorem recordField_updateOpMut_self (ops : Nat → String × String × V) (file : Records)
    (i : Nat) (h : (getEntry file (ops i).1).isSome = true) :
    recordField (updateOpMut ops i file) (ops i).1 (ops i).2.1 = some (ops i).2.2 := by
  match hg : getEntry file (ops i).1 with
  | none => rw [hg] at h; exact absurd h (by simp)
  | some rec =>
      unfold updateOpMut
      rw [update_user_records_found _ _ _ _ _ hg]
      simp only [recordField, getEntry_setEntry_self, Option.some_bind]

theorem recordField_runSerial_preserve (ops : Nat → String × String × V) (file : Records)
    (l2 : List Nat) (rid k : String)
    (h : ∀ j ∈ l2, (ops j).1 = rid → (ops j).2.1 ≠ k) :
    recordField (runSerial (updateOpMut ops) file l2) rid k = recordField file rid k := by
  induction l2 generalizing file with
  | nil => rfl
  | cons j rest ih =>
      rw [runSerial]
      rw [ih _ (fun j' hj' => h j' (List.mem_cons_of_mem _ hj'))]
      by_cases hr : (ops j).1 = rid
      · exact recordField_update_other _ _ _ _ _ _
          (Or.inr (h j (List.mem_cons_self _ _) hr))
      · exact recordField_update_other _ _ _ _ _ _ (Or.inl hr)

theorem runSerial_append (f : Nat → Records → Records) (file : Records)
    (l1 l2 : List Nat) :
    runSerial f file (l1 ++ l2) = runSerial f (runSerial f file l1) l2 := by
  induction l1 generalizing file with
  | nil => rfl
  | cons i rest ih => rw [List.cons_append, runSerial, runSerial, ih]

theorem runSteps_atomicSchedule (f : Nat → Records → Records) (order : List Nat) :
    ∀ (file : Records) (snaps : Nat → Option Records),
      (runSteps f ⟨file, snaps⟩ (atomicSchedule order)).file = runSerial f file order := by
  induction order with
  | nil => intro file snaps; rfl
  | cons i rest ih =>
      intro file snaps
      rw [atomicSchedule, runSteps, runSteps, runSerial]
      have hread : stepExec f ⟨file, snaps⟩ (MicroStep.readFile i) =
          ⟨file, fun j => if j = i then some file else snaps j⟩ := rfl
      rw [hread]
      have hwrite : stepExec f ⟨file, fun j => if j = i then some file else snaps j⟩
          (MicroStep.writeFile i) =
          ⟨f i file, fun j => if j = i then some file else snaps j⟩ := by
        show (match (if i = i then some file else snaps i : Option Records) with
          | some snap =>
              ({ file := f i snap, snaps := fun j => if j = i then some file else snaps j }
                : FileExec)
          | none => ⟨file, fun j => if j = i then some file else snaps j⟩) = _
        rw [if_pos rfl]
      rw [hwrite]
      exact ih (f i file) _

/-- C2: under the event-loop execution model, in which every whole-file
read-modify-write update runs with its read and write adjacent
(synchronous Python code is never preempted by the asyncio scheduler),
every schedule of concurrent update calls produces the file obtained by
applying the callers' mutators serially in schedule order; consequently
a top-level field written by one call survives unless a later call in
the serialization writes the same record id and key — no update is
dropped, even when a bulk sweep and an interactive handler update the
same subject record. -/
theorem C2_concurrent_updates_serialize :
    (∀ (f : Nat → Records → Records) (file : Records) (snaps : Nat → Option Records)
        (order : List Nat),
      (runSteps f ⟨file, snaps⟩ (atomicSchedule order)).file = runSerial f file order) ∧
    (∀ (ops : Nat → String × String × V) (file : Records) (l1 : List Nat) (i : Nat)
        (l2 : List Nat),
      (getEntry file (ops i).1).isSome = true →
      (∀ j ∈ l2, (ops j).1 = (ops i).1 → (ops j).2.1 ≠ (ops i).2.1) →
      recordField (runSerial (updateOpMut ops) file (l1 ++ i :: l2)) (ops i).1 (ops i).2.1 =
        some (ops i).2.2) := by
  constructor
  · intro f file snaps order
    exact runSteps_atomicSchedule f order file snaps
  · intro ops file l1 i l2 hpresent hnooverw
    rw [runSerial_append, runSerial]
    rw [recordField_runSerial_preserve _ _ _ _ _ hnooverw]
    exact recordField_updateOpMut_self _ _ _
      (isSome_runSerial_mono _ _ _ _ hpresent)

/-- Witness for C2: two concurrent updates to user `"1"` (caller 0 sets
`username`, caller 1 sets `first_name`), scheduled as caller 1 then
caller 0; caller 0's write survives. -/
theorem C2_concurrent_updates_serialize_witness :
    (getEntry sampleUsers (sampleOps 0).1).isSome = true ∧
    recordField (runSerial (updateOpMut sampleOps) sampleUsers [1, 0]) "1" "username" =
      some (V.str "A") := by
  have c := C2_concurrent_updates_serialize.2 sampleOps sampleUsers [1] 0 []
    (by decide) (fun j hj => absurd hj (List.not_mem_nil j))
  exact ⟨by decide, c⟩

/-- C4 counterexample: with `vacancy_video_record_agreed` already
`"yes"`, the video-record-request handler given the answer
`record_video_request:no` persists `"no"`, resetting a stage flag that
was true — and this operation is not a new-target selection. -/
theorem C4_flag_monotonicity_counterexample :
    recordField sampleVideoYesUsers "1" "vacancy_video_record_agreed" =
      some (V.str "yes") ∧
    recordField
      (handle_answer_video_record_request_update sampleVideoYesUsers "1"
        "record_video_request:no") "1" "vacancy_video_record_agreed" =
      some (V.str "no") := by
  decide

/-- C4 amended: the yes/no answer handlers persist the raw decision
extracted from the callback code, overwriting whatever value the flag
previously had; no monotonicity is enforced. -/
theorem C4_handlers_persist_raw_answer (records : Records) (bot_user_id code t : String)
    (rec : Dict) (h : getEntry records bot_user_id = some rec) :
    recordField (handle_answer_video_record_request_update records bot_user_id code)
        bot_user_id "vacancy_video_record_agreed" =
      some (V.str (get_decision_status_from_selected_callback_code code)) ∧
    recordField (handle_answer_policy_confirmation_update records bot_user_id code t)
        bot_user_id "privacy_policy_confirmed" =
      some (V.str (get_decision_status_from_selected_callback_code code)) := by
  constructor
  · simp only [handle_answer_video_record_request_update]
    rw [update_user_records_found _ _ _ _ _ h]
    simp only [recordField, getEntry_setEntry_self, Option.some_bind]
  · simp only [handle_answer_policy_confirmation_update]
    rw [update_user_records_found _ _ _ _ _ h]
    have h1 : getEntry
        (setEntry records bot_user_id (setEntry rec "privacy_policy_confirmed"
          (V.str (get_decision_status_from_selected_callback_code code)))) bot_user_id =
        some (setEntry rec "privacy_policy_confirmed"
          (V.str (get_decision_status_from_selected_callback_code code))) :=
      getEntry_setEntry_self _ _ _
    rw [update_user_records_found _ _ _ _ _ h1]
    simp only [recordField, getEntry_setEntry_self, Option.some_bind]
    rw [getEntry_setEntry_ne _ _ _ _ (by decide), getEntry_setEntry_self]

/-- Witness for C4's amended statement at a concrete store and answer. -/
theorem C4_handlers_persist_raw_answer_witness :
    recordField (handle_answer_video_record_request_update sampleVideoYesUsers "1"
        "record_video_request:no") "1" "vacancy_video_record_agreed" =
      some (V.str (get_decision_status_from_selected_callback_code
        "record_video_request:no")) ∧
    recordField (handle_answer_policy_confirmation_update sampleVideoYesUsers "1"
        "record_video_request:no" "t9") "1" "privacy_policy_confirmed" =
      some (V.str (get_decision_status_from_selected_callback_code
        "record_video_request:no")) :=
  C4_handlers_persist_raw_answer sampleVideoYesUsers "1" "record_video_request:no" "t9"
    (setEntry sampleDoneUser "vacancy_video_record_agreed" (V.str "yes")) (by decide)

/-- C8 counterexample: two eligible subjects, processing the first
raises — the sweep aborts and the second subject is never processed,
refuting per-subject failure isolation. -/
theorem C8_sweep_isolation_counterexample :
    admin_sweep_loop alwaysEligible (sweepBodyFailingOn "u1") ["u1", "u2"] =
      (["u1"], some "u1") ∧
    "u2" ∉ (admin_sweep_loop alwaysEligible (sweepBodyFailingOn "u1") ["u1", "u2"]).1 := by
  decide

/-- C8 amended: the sweep's single try/except wraps the whole loop — when
no eligible subject's body raises, exactly the eligible subjects are
processed; when an eligible subject raises, the exception is caught and
logged at sweep level, the earlier eligible subjects have been
processed, and the remaining subjects are not processed in that
invocation. -/
theorem C8_sweep_aborts_on_first_failure (precond : String → Bool)
    (body : String → Except String Unit) :
    (∀ users : List String, (∀ x ∈ users, precond x = true → body x = Except.ok ()) →
      admin_sweep_loop precond body users = (users.filter (fun x => precond x), none)) ∧
    (∀ (l1 l2 : List String) (u : String),
      (∀ x ∈ l1, precond x = true → body x = Except.ok ()) → precond u = true →
      (∃ e, body u = Except.error e) →
      admin_sweep_loop precond body (l1 ++ u :: l2) =
        (l1.filter (fun x => precond x) ++ [u], some u)) := by
  constructor
  · intro users
    induction users with
    | nil => intro _; rfl
    | cons x rest ih =>
        intro hall
        by_cases hp : precond x = true
        · rw [admin_sweep_loop, if_pos hp, hall x (List.mem_cons_self _ _) hp,
            ih (fun y hy => hall y (List.mem_cons_of_mem _ hy)), List.filter_cons,
            if_pos hp]
        · rw [admin_sweep_loop, if_neg hp,
            ih (fun y hy => hall y (List.mem_cons_of_mem _ hy)), List.filter_cons,
            if_neg hp]
  · intro l1 l2 u
    induction l1 with
    | nil =>
        intro _ hu hbu
        obtain ⟨e, he⟩ := hbu
        rw [List.nil_append, admin_sweep_loop, if_pos hu, he, List.filter_nil,
          List.nil_append]
    | cons x rest ih =>
        intro hall hu hbu
        by_cases hp : precond x = true
        · rw [List.cons_append, admin_sweep_loop, if_pos hp,
            hall x (List.mem_cons_self _ _) hp,
            ih (fun y hy => hall y (List.mem_cons_of_mem _ hy)) hu hbu,
            List.filter_cons, if_pos hp, List.cons_append]
        · rw [List.cons_append, admin_sweep_loop, if_neg hp,
            ih (fun y hy => hall y (List.mem_cons_of_mem _ hy)) hu hbu,
            List.filter_cons, if_neg hp]

/-- Witness for C8's amended statement: a clean sweep over two subjects,
and an aborted sweep over three subjects where the middle one raises. -/
theorem C8_sweep_aborts_on_first_failure_witness :
    admin_sweep_loop alwaysEligible (fun _ => Except.ok ()) ["a", "b"] =
      (["a", "b"], none) ∧
    admin_sweep_loop alwaysEligible (sweepBodyFailingOn "u1") ["u0", "u1", "u2"] =
      (["u0", "u1"], some "u1") := by
  constructor
  · have c := (C8_sweep_aborts_on_first_failure alwaysEligible
      (fun _ => Except.ok ())).1 ["a", "b"] (fun x _ _ => rfl)
    simpa [alwaysEligible] using c
  · have d := (C8_sweep_aborts_on_first_failure alwaysEligible
      (sweepBodyFailingOn "u1")).2 ["u0"] ["u2"] "u1"
      (by intro x hx hp; simp at hx; subst hx; rfl) rfl ⟨"boom", rfl⟩
    simpa [alwaysEligible] using d

theorem is_user_authorized_eq (records : Records) (uid : String) :
    is_user_authorized records uid =
      decide (recordField records uid "access_token_recieved" = some (V.str "yes")) := by
  unfold is_user_authorized recordField
  cases hg : getEntry records uid with
  | none => simp
  | some rec =>
      by_cases hP : getEntry rec "access_token_recieved" = some (V.str "yes") <;> simp [hP]

theorem is_manager_privacy_policy_confirmed_eq (records : Records) (uid : String) :
    is_manager_privacy_policy_confirmed records uid =
      decide (recordField records uid "privacy_policy_confirmed" = some (V.str "yes")) := by
  unfold is_manager_privacy_policy_confirmed recordField
  cases hg : getEntry records uid with
  | none => simp
  | some rec =>
      by_cases hP : getEntry rec "privacy_policy_confirmed" = some (V.str "yes") <;> simp [hP]

theorem is_vacancy_selected_eq (records : Records) (uid : String) :
    is_vacancy_selected records uid =
      decide (recordField records uid "vacancy_selected" = some (V.str "yes")) := by
  unfold is_vacancy_selected recordField
  cases hg : getEntry records uid with
  | none => simp
  | some rec =>
      by_cases hP : getEntry rec "vacancy_selected" = some (V.str "yes") <;> simp [hP]

theorem is_hh_data_in_user_record_eq (records : Records) (uid : String) :
    is_hh_data_in_user_record records uid =
      ((recordField records uid "data_from_hh").map truthy).getD false := by
  unfold is_hh_data_in_user_record recordField
  cases hg : getEntry records uid with
  | none => simp
  | some rec => cases hf : getEntry rec "data_from_hh" <;> simp [hf]

theorem isSome_of_privacy (records : Records) (uid : String)
    (h : is_manager_privacy_policy_confirmed records uid = true) :
    (getEntry records uid).isSome = true := by
  unfold is_manager_privacy_policy_confirmed at h
  cases hg : getEntry records uid with
  | none => rw [hg] at h; exact absurd h (by simp)
  | some rec => simp

theorem select_vacancy_records_id (env : AuthEnv) (records : Records) (uid : String) :
    (select_vacancy_command env records uid).1 = records := by
  unfold select_vacancy_command
  repeat' split
  all_goals rfl

theorem pull_user_data_fst (env : AuthEnv) (records : Records) (uid : String) :
    (pull_user_data_from_hh_command env records uid).1 =
      (if is_hh_data_in_user_record records uid = true then records
       else
         match env.cleanedUserInfo with
         | some info =>
             (update_user_records_with_top_level_key records uid "data_from_hh"
               (V.obj info)).1
         | none => records) := by
  unfold pull_user_data_from_hh_command
  split
  · rfl
  · split
    · exact select_vacancy_records_id _ _ _
    · rfl

theorem recordField_update_self (records : Records) (rid k : String) (v : V)
    (hpres : (getEntry records rid).isSome = true) :
    recordField (update_user_records_with_top_level_key records rid k v).1 rid k =
      some v := by
  obtain ⟨rec, hg⟩ := Option.isSome_iff_exists.mp hpres
  rw [update_user_records_found _ _ _ _ _ hg]
  simp [recordField, getEntry_setEntry_self, Option.some_bind]

theorem update_update_same (records : Records) (rid k : String) (v : V) :
    (update_user_records_with_top_level_key
      (update_user_records_with_top_level_key records rid k v).1 rid k v).1 =
    (update_user_records_with_top_level_key records rid k v).1 := by
  cases hg : getEntry records rid with
  | none => rw [update_user_records_missing _ _ _ _ hg, update_user_records_missing _ _ _ _ hg]
  | some rec =>
      rw [update_user_records_found _ _ _ _ _ hg]
      have hg2 : getEntry (setEntry records rid (setEntry rec k v)) rid =
          some (setEntry rec k v) := getEntry_setEntry_self _ _ _
      rw [update_user_records_found _ _ _ _ _ hg2, setEntry_setEntry_self,
        setEntry_setEntry_self]

theorem recordField_pull_other (env : AuthEnv) (records : Records) (uid rid k : String)
    (h : k ≠ "data_from_hh") :
    recordField (pull_user_data_from_hh_command env records uid).1 rid k =
      recordField records rid k := by
  rw [pull_user_data_fst]
  split
  · rfl
  · split
    · exact recordField_update_other _ _ _ _ _ _ (Or.inr (Ne.symm h))
    · rfl

theorem privacy_pull (env : AuthEnv) (records : Records) (uid : String) :
    is_manager_privacy_policy_confirmed (pull_user_data_from_hh_command env records uid).1
      uid = is_manager_privacy_policy_confirmed records uid := by
  rw [is_manager_privacy_policy_confirmed_eq, is_manager_privacy_policy_confirmed_eq,
    recordField_pull_other env records uid uid _ (by decide)]

theorem authorized_pull (env : AuthEnv) (records : Records) (uid : String) :
    is_user_authorized (pull_user_data_from_hh_command env records uid).1 uid =
      is_user_authorized records uid := by
  rw [is_user_authorized_eq, is_user_authorized_eq,
    recordField_pull_other env records uid uid _ (by decide)]

theorem privacy_authTokenWrites (records : Records) (uid : String)
    (tok : Option String) (exp : Option Int) :
    is_manager_privacy_policy_confirmed (authTokenWrites records uid tok exp) uid =
      is_manager_privacy_policy_confirmed records uid := by
  cases tok with
  | none => cases exp <;> rfl
  | some t =>
      cases exp with
      | none => rfl
      | some e =>
          unfold authTokenWrites
          rw [is_manager_privacy_policy_confirmed_eq,
            is_manager_privacy_policy_confirmed_eq,
            recordField_update_other _ _ _ _ _ _ (Or.inr (by decide)),
            recordField_update_other _ _ _ _ _ _ (Or.inr (by decide)),
            recordField_update_other _ _ _ _ _ _ (Or.inr (by decide))]

theorem authorized_authTokenWrites (records : Records) (uid : String) (t : String)
    (e : Int) (hpres : (getEntry records uid).isSome = true) :
    is_user_authorized (authTokenWrites records uid (some t) (some e)) uid = true := by
  unfold authTokenWrites
  rw [is_user_authorized_eq,
    recordField_update_other _ _ _ _ _ _ (Or.inr (by decide)),
    recordField_update_other _ _ _ _ _ _ (Or.inr (by decide)),
    recordField_update_self _ _ _ _ hpres]
  simp

theorem pull_idem (env : AuthEnv) (records : Records) (uid : String) :
    (pull_user_data_from_hh_command env
      (pull_user_data_from_hh_command env records uid).1 uid).1 =
    (pull_user_data_from_hh_command env records uid).1 := by
  by_cases h1 : is_hh_data_in_user_record records uid = true
  · have e1 : (pull_user_data_from_hh_command env records uid).1 = records := by
      rw [pull_user_data_fst, if_pos h1]
    rw [e1, pull_user_data_fst, if_pos h1]
  · cases hinfo : env.cleanedUserInfo with
    | none =>
        have e1 : (pull_user_data_from_hh_command env records uid).1 = records := by
          rw [pull_user_data_fst, if_neg h1, hinfo]
        rw [e1]
        exact e1
    | some info =>
        have e1 : (pull_user_data_from_hh_command env records uid).1 =
            (update_user_records_with_top_level_key records uid "data_from_hh"
              (V.obj info)).1 := by
          rw [pull_user_data_fst, if_neg h1, hinfo]
        rw [e1]
        cases hg : getEntry records uid with
        | none =>
            have e2 : (update_user_records_with_top_level_key records uid "data_from_hh"
                (V.obj info)).1 = records := by
              rw [update_user_records_missing _ _ _ _ hg]
            rw [e2, pull_user_data_fst, if_neg h1, hinfo]
            exact e2
        | some rec =>
            have hpres : (getEntry records uid).isSome = true := by rw [hg]; rfl
            have hupd : recordField (update_user_records_with_top_level_key records uid
                "data_from_hh" (V.obj info)).1 uid "data_from_hh" = some (V.obj info) :=
              recordField_update_self _ _ _ _ hpres
            have h2 : is_hh_data_in_user_record (update_user_records_with_top_level_key
                records uid "data_from_hh" (V.obj info)).1 uid = truthy (V.obj info) := by
              rw [is_hh_data_in_user_record_eq, hupd]
              rfl
            by_cases htr : truthy (V.obj info) = true
            · have h3 : is_hh_data_in_user_record (update_user_records_with_top_level_key
                  records uid "data_from_hh" (V.obj info)).1 uid = true := by
                rw [h2, htr]
              rw [pull_user_data_fst, if_pos h3]
            · have h3 : ¬ is_hh_data_in_user_record (update_user_records_with_top_level_key
                  records uid "data_from_hh" (V.obj info)).1 uid = true := by
                rw [h2]
                exact htr
              rw [pull_user_data_fst, if_neg h3, hinfo]
              exact update_update_same records uid "data_from_hh" (V.obj info)

theorem authPollLoop_eq_none (env : AuthEnv) (uid : String) (records : Records)
    (attempt n : Nat) (last : Option TokenResp) (hr : env.tokenResp attempt = none) :
    authPollLoop env uid records attempt (n + 1) last =
      ((authPollLoop env uid records (attempt + 1) n none).1,
        Action.pollToken attempt ::
          (authPollLoop env uid records (attempt + 1) n none).2.1,
        (authPollLoop env uid records (attempt + 1) n none).2.2) := by
  rw [authPollLoop]
  rw [hr]

theorem authPollLoop_eq_notReady (env : AuthEnv) (uid : String) (records : Records)
    (attempt n : Nat) (last : Option TokenResp)
    (hr : env.tokenResp attempt = some TokenResp.notReady) :
    authPollLoop env uid records attempt (n + 1) last =
      ((authPollLoop env uid records (attempt + 1) n (some TokenResp.notReady)).1,
        Action.pollToken attempt ::
          (authPollLoop env uid records (attempt + 1) n (some TokenResp.notReady)).2.1,
        (authPollLoop env uid records (attempt + 1) n (some TokenResp.notReady)).2.2) := by
  rw [authPollLoop]
  rw [hr]

theorem authPollLoop_eq_payload (env : AuthEnv) (uid : String) (records : Records)
    (attempt n : Nat) (last : Option TokenResp) (tok : Option String) (exp : Option Int)
    (hr : env.tokenResp attempt = some (TokenResp.payload tok exp)) :
    authPollLoop env uid records attempt (n + 1) last =
      ((pull_user_data_from_hh_command env (authTokenWrites records uid tok exp) uid).1,
        Action.pollToken attempt :: Action.sendUser Msg.authSuccess ::
          (pull_user_data_from_hh_command env (authTokenWrites records uid tok exp)
            uid).2,
        some (TokenResp.payload tok exp)) := by
  rw [authPollLoop]
  rw [hr]

theorem firstPayload_eq_none_resp (env : AuthEnv) (attempt n : Nat)
    (hr : env.tokenResp attempt = none) :
    firstPayload env attempt (n + 1) = firstPayload env (attempt + 1) n := by
  rw [firstPayload]
  rw [hr]

theorem firstPayload_eq_notReady (env : AuthEnv) (attempt n : Nat)
    (hr : env.tokenResp attempt = some TokenResp.notReady) :
    firstPayload env attempt (n + 1) = firstPayload env (attempt + 1) n := by
  rw [firstPayload]
  rw [hr]

theorem firstPayload_eq_payload (env : AuthEnv) (attempt n : Nat) (tok : Option String)
    (exp : Option Int) (hr : env.tokenResp attempt = some (TokenResp.payload tok exp)) :
    firstPayload env attempt (n + 1) = some (attempt, tok, exp) := by
  rw [firstPayload]
  rw [hr]

theorem authPollLoop_fst (env : AuthEnv) (uid : String) (records : Records) :
    ∀ (fuel attempt : Nat) (last : Option TokenResp),
      (authPollLoop env uid records attempt fuel last).1 =
        (match firstPayload env attempt fuel with
         | none => records
         | some (_, tok, exp) =>
             (pull_user_data_from_hh_command env (authTokenWrites records uid tok exp)
               uid).1) := by
  intro fuel
  induction fuel with
  | zero => intro attempt last; rfl
  | succ n ih =>
      intro attempt last
      cases hr : env.tokenResp attempt with
      | none =>
          rw [authPollLoop_eq_none env uid records attempt n last hr,
            firstPayload_eq_none_resp env attempt n hr]
          exact ih (attempt + 1) none
      | some resp =>
          cases resp with
          | notReady =>
              rw [authPollLoop_eq_notReady env uid records attempt n last hr,
                firstPayload_eq_notReady env attempt n hr]
              exact ih (attempt + 1) (some TokenResp.notReady)
          | payload tok exp =>
              rw [authPollLoop_eq_payload env uid records attempt n last tok exp hr,
                firstPayload_eq_payload env attempt n tok exp hr]

theorem authPollLoop_fst_none (env : AuthEnv) (uid : String) (records : Records)
    (fuel attempt : Nat) (last : Option TokenResp)
    (h : firstPayload env attempt fuel = none) :
    (authPollLoop env uid records attempt fuel last).1 = records := by
  rw [authPollLoop_fst env uid records fuel attempt last, h]

theorem authPollLoop_fst_payload (env : AuthEnv) (uid : String) (records : Records)
    (fuel attempt : Nat) (last : Option TokenResp) (i : Nat) (tok : Option String)
    (exp : Option Int) (h : firstPayload env attempt fuel = some (i, tok, exp)) :
    (authPollLoop env uid records attempt fuel last).1 =
      (pull_user_data_from_hh_command env (authTokenWrites records uid tok exp) uid).1 := by
  rw [authPollLoop_fst env uid records fuel attempt last, h]

theorem authTokenWrites_id (records : Records) (uid : String) (tok : Option String)
    (exp : Option Int) (h : tok = none ∨ exp = none) :
    authTokenWrites records uid tok exp = records := by
  cases tok with
  | none => cases exp <;> rfl
  | some t =>
      cases exp with
      | none => rfl
      | some e => rcases h with h | h <;> exact absurd h (by simp)

theorem authPollLoop_last_allNone (env : AuthEnv) (uid : String) (records : Records)
    (h : ∀ i, env.tokenResp i = none) :
    ∀ fuel attempt, (authPollLoop env uid records attempt fuel none).2.2 = none := by
  intro fuel
  induction fuel with
  | zero => intro attempt; rfl
  | succ n ih =>
      intro attempt
      rw [authPollLoop_eq_none env uid records attempt n none (h attempt)]
      exact ih (attempt + 1)

theorem firstPayload_allNone (env : AuthEnv) (h : ∀ i, env.tokenResp i = none) :
    ∀ fuel attempt, firstPayload env attempt fuel = none := by
  intro fuel
  induction fuel with
  | zero => intro attempt; rfl
  | succ n ih =>
      intro attempt
      rw [firstPayload_eq_none_resp env attempt n (h attempt)]
      exact ih (attempt + 1)

theorem countPolls_select (env : AuthEnv) (records : Records) (uid : String) :
    countPolls (select_vacancy_command env records uid).2 = 0 := by
  unfold select_vacancy_command
  repeat' split
  all_goals simp [countPolls, isPollAction, List.countP_cons, List.countP_nil]

theorem countPolls_pull (env : AuthEnv) (records : Records) (uid : String) :
    countPolls (pull_user_data_from_hh_command env records uid).2 = 0 := by
  unfold pull_user_data_from_hh_command
  split
  · simp [countPolls, List.countP_nil]
  · split
    · rename_i info _
      have h := countPolls_select env
        (update_user_records_with_top_level_key records uid "data_from_hh"
          (V.obj info)).1 uid
      simp [countPolls, List.countP_cons, isPollAction] at h ⊢
      exact h
    · simp [countPolls, isPollAction, List.countP_cons, List.countP_nil]

theorem countPolls_loop (env : AuthEnv) (uid : String) (records : Records) :
    ∀ (fuel attempt : Nat) (last : Option TokenResp),
      countPolls (authPollLoop env uid records attempt fuel last).2.1 ≤ fuel := by
  intro fuel
  induction fuel with
  | zero => intro attempt last; simp [authPollLoop, countPolls]
  | succ n ih =>
      intro attempt last
      cases hr : env.tokenResp attempt with
      | none =>
          rw [authPollLoop_eq_none env uid records attempt n last hr]
          have h := ih (attempt + 1) none
          simp [countPolls, List.countP_cons, isPollAction] at h ⊢
          omega
      | some resp =>
          cases resp with
          | notReady =>
              rw [authPollLoop_eq_notReady env uid records attempt n last hr]
              have h := ih (attempt + 1) (some TokenResp.notReady)
              simp [countPolls, List.countP_cons, isPollAction] at h ⊢
              omega
          | payload tok exp =>
              rw [authPollLoop_eq_payload env uid records attempt n last tok exp hr]
              have h := countPolls_pull env (authTokenWrites records uid tok exp) uid
              simp only [countPolls] at h
              simp [countPolls, List.countP_cons, isPollAction, h]

theorem hh_auth_guard (env : AuthEnv) (records : Records) (uid : String)
    (hP : is_manager_privacy_policy_confirmed records uid = true)
    (hA : is_user_authorized records uid = true) :
    hh_authorization_command env records uid =
      (records, [Action.sendUser Msg.hhAuthSuccess]) := by
  unfold hh_authorization_command
  simp [hP, hA]

theorem hh_auth_main_branch (env : AuthEnv) (records : Records) (uid : String)
    (hP : is_manager_privacy_policy_confirmed records uid = true)
    (hA : is_user_authorized records uid = false) (hH : env.healthOk = true) :
    hh_authorization_command env records uid =
      ((authPollLoop env uid records 1 30 none).1,
        Action.healthcheck :: Action.sendUser Msg.authRequest ::
          Action.sendUser Msg.waitingAuth ::
          ((authPollLoop env uid records 1 30 none).2.1 ++
            (match (authPollLoop env uid records 1 30 none).2.2 with
             | none => [Action.sendUser Msg.authFailed]
             | some _ => []))) := by
  unfold hh_authorization_command
  simp [hP, hA, hH]

theorem hh_auth_weird_second (env : AuthEnv) (records : Records) (uid : String)
    (i : Nat) (tok : Option String) (exp : Option Int)
    (hP : is_manager_privacy_policy_confirmed records uid = true)
    (hAf : is_user_authorized records uid = false)
    (hH : env.healthOk = true)
    (hfp : firstPayload env 1 30 = some (i, tok, exp))
    (hw : tok = none ∨ exp = none) :
    (hh_authorization_command env (pull_user_data_from_hh_command env records uid).1
        uid).1 =
      (pull_user_data_from_hh_command env records uid).1 := by
  have hPX : is_manager_privacy_policy_confirmed
      (pull_user_data_from_hh_command env records uid).1 uid = true := by
    rw [privacy_pull]; exact hP
  have hAX : is_user_authorized
      (pull_user_data_from_hh_command env records uid).1 uid = false := by
    rw [authorized_pull]; exact hAf
  have e3 := hh_auth_main_branch env
    (pull_user_data_from_hh_command env records uid).1 uid hPX hAX hH
  have e4 : (hh_authorization_command env
      (pull_user_data_from_hh_command env records uid).1 uid).1 =
      (authPollLoop env uid (pull_user_data_from_hh_command env records uid).1
        1 30 none).1 := by
    rw [e3]
  rw [e4, authPollLoop_fst_payload env uid _ 30 1 none i tok exp hfp,
    authTokenWrites_id _ uid tok exp hw]
  exact pull_idem env records uid

/-- C1: for the workflow stages whose advance operation guards on an
already-true flag, advancing is idempotent on the persisted records.
When the user is already authorized, `hh_authorization_command` only
sends the success text — no OAuth link, no polling, no record write;
when a vacancy is already selected, `select_vacancy_command` only sends
the success text — no HH fetch, no record write. And calling either
advance twice in a row (against the same external environment) leaves
the same persisted records as calling it once. -/
theorem C1_stage_advance_idempotent :
    (∀ (env : AuthEnv) (records : Records) (uid : String),
      is_manager_privacy_policy_confirmed records uid = true →
      is_user_authorized records uid = true →
      hh_authorization_command env records uid =
        (records, [Action.sendUser Msg.hhAuthSuccess])) ∧
    (∀ (env : AuthEnv) (records : Records) (uid : String),
      is_manager_privacy_policy_confirmed records uid = true →
      is_vacancy_selected records uid = true →
      select_vacancy_command env records uid =
        (records, [Action.sendUser Msg.selectVacancySuccess])) ∧
    (∀ (env : AuthEnv) (records : Records) (uid : String),
      (hh_authorization_command env
        (hh_authorization_command env records uid).1 uid).1 =
      (hh_authorization_command env records uid).1) ∧
    (∀ (env : AuthEnv) (records : Records) (uid : String),
      (select_vacancy_command env
        (select_vacancy_command env records uid).1 uid).1 =
      (select_vacancy_command env records uid).1) := by
  refine ⟨?_, ?_, ?_, ?_⟩
  · intro env records uid hP hA
    exact hh_auth_guard env records uid hP hA
  · intro env records uid hP hS
    unfold select_vacancy_command
    simp [hP, hS]
  · intro env records uid
    by_cases hP : is_manager_privacy_policy_confirmed records uid = true
    · by_cases hA : is_user_authorized records uid = true
      · have e1 : (hh_authorization_command env records uid).1 = records := by
          rw [hh_auth_guard env records uid hP hA]
        rw [e1]
        exact e1
      · have hAf : is_user_authorized records uid = false := by
          cases h : is_user_authorized records uid
          · rfl
          · exact absurd h hA
        by_cases hH : env.healthOk = true
        · have e1 : (hh_authorization_command env records uid).1 =
              (authPollLoop env uid records 1 30 none).1 := by
            rw [hh_auth_main_branch env records uid hP hAf hH]
          cases hfp : firstPayload env 1 30 with
          | none =>
              have e2 : (hh_authorization_command env records uid).1 = records := by
                rw [e1, authPollLoop_fst_none env uid records 30 1 none hfp]
              rw [e2]
              exact e2
          | some trip =>
              obtain ⟨i, tok, exp⟩ := trip
              have e2 : (hh_authorization_command env records uid).1 =
                  (pull_user_data_from_hh_command env
                    (authTokenWrites records uid tok exp) uid).1 := by
                rw [e1, authPollLoop_fst_payload env uid records 30 1 none i tok exp hfp]
              cases tok with
              | some t =>
                  cases exp with
                  | some e =>
                      have hpres := isSome_of_privacy records uid hP
                      have hPX : is_manager_privacy_policy_confirmed
                          (hh_authorization_command env records uid).1 uid = true := by
                        rw [e2, privacy_pull, privacy_authTokenWrites]
                        exact hP
                      have hAX : is_user_authorized
                          (hh_authorization_command env records uid).1 uid = true := by
                        rw [e2, authorized_pull]
                        exact authorized_authTokenWrites records uid t e hpres
                      rw [hh_auth_guard env _ uid hPX hAX]
                  | none =>
                      rw [authTokenWrites_id records uid (some t) none (Or.inr rfl)]
                        at e2
                      rw [e2]
                      exact hh_auth_weird_second env records uid i (some t) none hP hAf
                        hH hfp (Or.inr rfl)
              | none =>
                  rw [authTokenWrites_id records uid none exp (Or.inl rfl)] at e2
                  rw [e2]
                  exact hh_auth_weird_second env records uid i none exp hP hAf hH hfp
                    (Or.inl rfl)
        · have hHf : env.healthOk = false := by
            cases h : env.healthOk
            · rfl
            · exact absurd h hH
          have e1 : (hh_authorization_command env records uid).1 = records := by
            unfold hh_authorization_command
            simp [hP, hAf, hHf]
          rw [e1]
          exact e1
    · have hPf : is_manager_privacy_policy_confirmed records uid = false := by
        cases h : is_manager_privacy_policy_confirmed records uid
        · rfl
        · exact absurd h hP
      have e1 : (hh_authorization_command env records uid).1 = records := by
        unfold hh_authorization_command
        rw [if_pos hPf]
      rw [e1]
      exact e1
  · intro env records uid
    rw [select_vacancy_records_id, select_vacancy_records_id]

/-- Witness for C1: a user with every stage flag set — both advances
return success without touching the store. -/
theorem C1_stage_advance_idempotent_witness :
    hh_authorization_command envAllNone sampleUsers "1" =
      (sampleUsers, [Action.sendUser Msg.hhAuthSuccess]) ∧
    select_vacancy_command envAllNone sampleUsers "1" =
      (sampleUsers, [Action.sendUser Msg.selectVacancySuccess]) := by
  have c := C1_stage_advance_idempotent
  exact ⟨c.1 envAllNone sampleUsers "1" (by decide) (by decide),
    c.2.1 envAllNone sampleUsers "1" (by decide) (by decide)⟩

/-- C9 counterexample: when every poll returns the records-not-ready
marker, the flow stops after its 30-attempt budget without any
successful authorization — but no failure is reported to the user,
because the final `endpoint_response` is not `None`. -/
theorem C9_not_ready_skips_failure_report :
    (hh_authorization_command envAllNotReady sampleConsentUsers "1").1 =
      sampleConsentUsers ∧
    countPolls (hh_authorization_command envAllNotReady sampleConsentUsers "1").2 = 30 ∧
    Action.sendUser Msg.authFailed ∉
      (hh_authorization_command envAllNotReady sampleConsentUsers "1").2 ∧
    Action.sendUser Msg.authSuccess ∉
      (hh_authorization_command envAllNotReady sampleConsentUsers "1").2 := by
  decide

/-- C9 amended: the polling loop always terminates within its fixed
budget of 30 attempts (fixed 6-second interval), leaving the records
unchanged when no payload arrives; and when every poll attempt returns
no response at all, the flow reports failure to the user. (When the
final attempt returns the records-not-ready marker instead of no
response, the flow still stops but reports nothing.) -/
theorem C9_auth_polling_bounded :
    (∀ (env : AuthEnv) (records : Records) (uid : String),
      countPolls (hh_authorization_command env records uid).2 ≤ 30) ∧
    (∀ (env : AuthEnv) (records : Records) (uid : String),
      is_manager_privacy_policy_confirmed records uid = true →
      is_user_authorized records uid = false →
      env.healthOk = true →
      (∀ i, env.tokenResp i = none) →
      (hh_authorization_command env records uid).1 = records ∧
      Action.sendUser Msg.authFailed ∈ (hh_authorization_command env records uid).2) := by
  constructor
  · intro env records uid
    unfold hh_authorization_command
    split
    · simp [countPolls, isPollAction, List.countP_cons, List.countP_nil]
    · split
      · simp [countPolls, isPollAction, List.countP_cons, List.countP_nil]
      · split
        · simp [countPolls, isPollAction, List.countP_cons, List.countP_nil]
        · have h1 := countPolls_loop env uid records 30 1 none
          simp only [countPolls] at h1
          simp [countPolls, List.countP_cons, List.countP_append, isPollAction]
          split
          · simp [List.countP_cons, isPollAction]
            omega
          · simp [List.countP_nil]
            omega
  · intro env records uid hP hAf hH hall
    have e3 := hh_auth_main_branch env records uid hP hAf hH
    constructor
    · rw [e3]
      exact authPollLoop_fst_none env uid records 30 1 none
        (firstPayload_allNone env hall 30 1)
    · rw [e3]
      rw [authPollLoop_last_allNone env uid records hall 30 1]
      simp

/-- Witness for C9's amended statement: the all-`None` endpoint — the
records are untouched and the failure text is sent. -/
theorem C9_auth_polling_bounded_witness :
    countPolls (hh_authorization_command envAllNone sampleConsentUsers "1").2 ≤ 30 ∧
    (hh_authorization_command envAllNone sampleConsentUsers "1").1 =
      sampleConsentUsers ∧
    Action.sendUser Msg.authFailed ∈
      (hh_authorization_command envAllNone sampleConsentUsers "1").2 := by
  have c := C9_auth_polling_bounded
  have h2 := c.2 envAllNone sampleConsentUsers "1" (by decide) (by decide) rfl
    (fun i => rfl)
  exact ⟨c.1 envAllNone sampleConsentUsers "1", h2.1, h2.2⟩

theorem resume_update_ok_inv (records : Records) (rid k : String) (v : V) (r : Records)
    (hok : update_resume_record_with_top_level_key records rid k v = Except.ok r) :
    ∃ rec, getEntry records rid = some rec ∧
      r = setEntry records rid (setEntry rec k v) := by
  unfold update_resume_record_with_top_level_key at hok
  cases hg : getEntry records rid with
  | none => rw [hg] at hok; exact absurd hok (by simp)
  | some rec =>
      rw [hg] at hok
      injection hok with h
      exact ⟨rec, rfl, h.symm⟩

theorem recordField_resume_update_other (records : Records) (rid k rid' k' : String)
    (v' : V) (r : Records)
    (hok : update_resume_record_with_top_level_key records rid' k' v' = Except.ok r)
    (h : rid' ≠ rid ∨ k' ≠ k) :
    recordField r rid k = recordField records rid k := by
  obtain ⟨rec, hg, hr⟩ := resume_update_ok_inv records rid' k' v' r hok
  subst hr
  have h2 := recordField_update_other records rid k rid' k' v' h
  rw [update_user_records_found _ _ _ _ _ hg] at h2
  exact h2

theorem recordField_resume_update_self (records : Records) (rid k : String) (v : V)
    (r : Records)
    (hok : update_resume_record_with_top_level_key records rid k v = Except.ok r) :
    recordField r rid k = some v := by
  obtain ⟨rec, hg, hr⟩ := resume_update_ok_inv records rid k v r hok
  subst hr
  simp [recordField, getEntry_setEntry_self, Option.some_bind]

theorem getEntry_resume_update_other (records : Records) (rid' k : String) (v : V)
    (r : Records) (rid : String)
    (hok : update_resume_record_with_top_level_key records rid' k v = Except.ok r)
    (h : rid ≠ rid') :
    getEntry r rid = getEntry records rid := by
  obtain ⟨rec, hg, hr⟩ := resume_update_ok_inv records rid' k v r hok
  subst hr
  exact getEntry_setEntry_ne _ _ _ _ h

/-- C3 counterexample: the job writes the AI payload to the record
before the messaging and sorting steps; when the message-sending step
raises, the record keeps the new `ai_analysis` while
`resume_sorting_status` is still `"new"` — the record is not left as it
was before the job ran. -/
theorem C3_job_failure_partial_write_counterexample :
    (resume_analysis_from_ai_to_user_sort_resume 7 envSendRaises "r3"
        sampleTaskState).records ≠ sampleTaskState.records ∧
    recordField (resume_analysis_from_ai_to_user_sort_resume 7 envSendRaises "r3"
        sampleTaskState).records "r3" "ai_analysis" =
      some (V.obj [("final_score", OV.a (Atom.i 9))]) ∧
    recordField (resume_analysis_from_ai_to_user_sort_resume 7 envSendRaises "r3"
        sampleTaskState).records "r3" "resume_sorting_status" = some (V.str "new") ∧
    recordField sampleTaskState.records "r3" "ai_analysis" = some (V.obj []) := by
  decide

/-- C3 amended: a failure during the AI call itself leaves the records
and file locations exactly as before the job ran; but the job persists
the AI payload before the messaging and sorting steps, so a failure
after that write leaves a partial update — the `ai_analysis` payload is
stored while `resume_sorting_status` and the file location are
untouched (the file stays in `new`, so a later sweep re-queues the
resume). -/
theorem C3_job_failure_state (passedScore : Int) (env : TaskEnv) (resume_id : String)
    (st : ResumeState) :
    (env.aiResult = none →
      resume_analysis_from_ai_to_user_sort_resume passedScore env resume_id st = st) ∧
    (∀ (ai : List (String × OV)) (r1 : Records), env.aiResult = some ai →
      env.sendRaises = true →
      update_resume_record_with_top_level_key st.records resume_id "ai_analysis"
          (V.obj ai) = Except.ok r1 →
      resume_analysis_from_ai_to_user_sort_resume passedScore env resume_id st =
        { records := r1, loc := st.loc } ∧
      recordField r1 resume_id "resume_sorting_status" =
        recordField st.records resume_id "resume_sorting_status") := by
  constructor
  · intro h
    unfold resume_analysis_from_ai_to_user_sort_resume
    rw [h]
  · intro ai r1 hai hsend hok
    constructor
    · unfold resume_analysis_from_ai_to_user_sort_resume
      simp only [hai, hok, hsend, if_true]
    · exact recordField_resume_update_other st.records resume_id "resume_sorting_status"
        resume_id "ai_analysis" (V.obj ai) r1 hok (Or.inr (by decide))

/-- Witness for C3's amended statement at the concrete one-resume
state. -/
theorem C3_job_failure_state_witness :
    resume_analysis_from_ai_to_user_sort_resume 7 envAiFails "r3" sampleTaskState =
      sampleTaskState ∧
    resume_analysis_from_ai_to_user_sort_resume 7 envSendRaises "r3" sampleTaskState =
      { records := setEntry sampleTaskRecords "r3"
          (setEntry (standard_new_resume_values "1" "v1" "Vac" "r3") "ai_analysis"
            (V.obj [("final_score", OV.a (Atom.i 9))])),
        loc := sampleTaskState.loc } := by
  have c1 := (C3_job_failure_state 7 envAiFails "r3" sampleTaskState).1 rfl
  have c2 := (C3_job_failure_state 7 envSendRaises "r3" sampleTaskState).2
    [("final_score", OV.a (Atom.i 9))]
    (setEntry sampleTaskRecords "r3"
      (setEntry (standard_new_resume_values "1" "v1" "Vac" "r3") "ai_analysis"
        (V.obj [("final_score", OV.a (Atom.i 9))])))
    rfl rfl (by rfl)
  exact ⟨c1, c2.1⟩

theorem unchanged_status_step (st st' : ResumeState) (rid : String)
    (hstat : statusOf st' rid = statusOf st rid)
    (hB : (statusOf st' rid = some (V.str "passed") ∨
        statusOf st' rid = some (V.str "failed")) →
      getEntry st'.loc rid ≠ some FileLoc.inNew)
    (habs : getEntry st.records rid = none → getEntry st'.records rid = none)
    (hInv : ResumeInv st rid) : StatusStepOk st st' rid := by
  refine ⟨⟨?_, hB⟩, fun _ => hstat, fun hc => absurd hstat hc⟩
  rcases hInv.1 with h | h | h | h
  · exact Or.inl (habs h)
  · exact Or.inr (Or.inl (by rw [hstat]; exact h))
  · exact Or.inr (Or.inr (Or.inl (by rw [hstat]; exact h)))
  · exact Or.inr (Or.inr (Or.inr (by rw [hstat]; exact h)))

theorem st_self_leaf (st : ResumeState) (rid : String) (hInv : ResumeInv st rid) :
    StatusStepOk st st rid :=
  unchanged_status_step st st rid rfl hInv.2 (fun h => h) hInv

theorem records_only_leaf (st : ResumeState) (rid rid' k' : String) (v' : V)
    (r1 : Records)
    (hu : update_resume_record_with_top_level_key st.records rid' k' v' = Except.ok r1)
    (hk : k' ≠ "resume_sorting_status") (hInv : ResumeInv st rid) :
    StatusStepOk st { st with records := r1 } rid := by
  have hstat1 : statusOf { st with records := r1 } rid = statusOf st rid :=
    recordField_resume_update_other _ _ _ _ _ _ _ hu (Or.inr hk)
  refine unchanged_status_step st _ rid hstat1 ?_ ?_ hInv
  · intro hpf
    rw [hstat1] at hpf
    exact hInv.2 hpf
  · intro h
    show getEntry r1 rid = none
    by_cases he : rid = rid'
    · subst he
      obtain ⟨rec, hg, -⟩ := resume_update_ok_inv _ _ _ _ _ hu
      rw [h] at hg
      simp at hg
    · rw [getEntry_resume_update_other _ _ _ _ _ _ hu he]
      exact h

theorem sort_leaf_ok (st : ResumeState) (rid rid' sval : String) (floc : FileLoc)
    (ai : List (String × OV)) (r1 r2 : Records)
    (hu : update_resume_record_with_top_level_key st.records rid' "ai_analysis"
      (V.obj ai) = Except.ok r1)
    (hu2 : update_resume_record_with_top_level_key r1 rid' "resume_sorting_status"
      (V.str sval) = Except.ok r2)
    (hcondloc : getEntry st.loc rid' = some FileLoc.inNew)
    (hval : sval = "passed" ∨ sval = "failed") (hfl : floc ≠ FileLoc.inNew)
    (hInv : ResumeInv st rid) :
    StatusStepOk st { records := r2, loc := setEntry st.loc rid' floc } rid := by
  have hstat1 : recordField r1 rid "resume_sorting_status" = statusOf st rid :=
    recordField_resume_update_other _ _ _ _ _ _ _ hu (Or.inr (by decide))
  by_cases hrr : rid' = rid
  · subst hrr
    have hstnew : statusOf st rid' = some (V.str "new") := by
      rcases hInv.1 with h | h | h | h
      · obtain ⟨rec, hg, -⟩ := resume_update_ok_inv _ _ _ _ _ hu
        rw [h] at hg
        simp at hg
      · exact h
      · exact absurd hcondloc (hInv.2 (Or.inl h))
      · exact absurd hcondloc (hInv.2 (Or.inr h))
    have hafter : statusOf { records := r2, loc := setEntry st.loc rid' floc } rid' =
        some (V.str sval) := recordField_resume_update_self _ _ _ _ _ hu2
    refine ⟨⟨?_, ?_⟩, ?_, ?_⟩
    · rcases hval with h | h
      · exact Or.inr (Or.inr (Or.inl (by rw [hafter, h])))
      · exact Or.inr (Or.inr (Or.inr (by rw [hafter, h])))
    · intro _
      show getEntry (setEntry st.loc rid' floc) rid' ≠ some FileLoc.inNew
      rw [getEntry_setEntry_self]
      intro hc
      injection hc with hc'
      exact hfl hc'
    · intro hpf
      rcases hpf with h | h <;> (rw [hstnew] at h; simp at h)
    · intro _
      refine Or.inr ⟨hstnew, ?_⟩
      rcases hval with h | h
      · exact Or.inl (by rw [hafter, h])
      · exact Or.inr (by rw [hafter, h])
  · have hstat2 : statusOf { records := r2, loc := setEntry st.loc rid' floc } rid =
        statusOf st rid := by
      have h2 := recordField_resume_update_other r1 rid "resume_sorting_status" rid'
        "resume_sorting_status" (V.str sval) r2 hu2 (Or.inl hrr)
      exact h2.trans hstat1
    refine unchanged_status_step st _ rid hstat2 ?_ ?_ hInv
    · intro hpf
      rw [hstat2] at hpf
      show getEntry (setEntry st.loc rid' floc) rid ≠ some FileLoc.inNew
      rw [getEntry_setEntry_ne _ _ _ _ (fun hh => hrr hh.symm)]
      exact hInv.2 hpf
    · intro h
      show getEntry r2 rid = none
      rw [getEntry_resume_update_other _ _ _ _ _ _ hu2 (fun hh => hrr hh.symm),
        getEntry_resume_update_other _ _ _ _ _ _ hu (fun hh => hrr hh.symm)]
      exact h

theorem sort_leaf_error (st : ResumeState) (rid rid' : String) (floc : FileLoc)
    (ai : List (String × OV)) (r1 : Records)
    (hu : update_resume_record_with_top_level_key st.records rid' "ai_analysis"
      (V.obj ai) = Except.ok r1)
    (hfl : floc ≠ FileLoc.inNew) (hInv : ResumeInv st rid) :
    StatusStepOk st { records := r1, loc := setEntry st.loc rid' floc } rid := by
  have hstat1 : statusOf { records := r1, loc := setEntry st.loc rid' floc } rid =
      statusOf st rid :=
    recordField_resume_update_other _ _ _ _ _ _ _ hu (Or.inr (by decide))
  refine unchanged_status_step st _ rid hstat1 ?_ ?_ hInv
  · intro hpf
    rw [hstat1] at hpf
    show getEntry (setEntry st.loc rid' floc) rid ≠ some FileLoc.inNew
    by_cases hrr : rid' = rid
    · subst hrr
      rw [getEntry_setEntry_self]
      intro hc
      injection hc with hc'
      exact hfl hc'
    · rw [getEntry_setEntry_ne _ _ _ _ (fun hh => hrr hh.symm)]
      exact hInv.2 hpf
  · intro h
    show getEntry r1 rid = none
    by_cases he : rid = rid'
    · subst he
      obtain ⟨rec, hg, -⟩ := resume_update_ok_inv _ _ _ _ _ hu
      rw [h] at hg
      simp at hg
    · rw [getEntry_resume_update_other _ _ _ _ _ _ hu he]
      exact h

theorem applyResumeOp_sourceResume (st : ResumeState) (b v vn rid' : String) :
    applyResumeOp st (ResumeOp.sourceResume b v vn rid') =
      (if (getEntry st.records rid').isSome then st
       else ResumeState.mk
         (create_record_for_new_resume_id_in_resume_records st.records b v vn rid')
         (setEntry st.loc rid' FileLoc.inNew)) := rfl

theorem applyResumeOp_updateField (st : ResumeState) (rid' key : String) (value : V) :
    applyResumeOp st (ResumeOp.updateField rid' key value) =
      (match update_resume_record_with_top_level_key st.records rid' key value with
       | Except.ok r => ResumeState.mk r st.loc
       | Except.error _ => st) := rfl

theorem resume_step_ok (st : ResumeState) (rid : String) (op : ResumeOp)
    (hsafe : statusSafeOp op) (hInv : ResumeInv st rid) :
    StatusStepOk st (applyResumeOp st op) rid := by
  cases op with
  | sourceResume b v vn rid' =>
      by_cases hpres : (getEntry st.records rid').isSome = true
      · have he : applyResumeOp st (ResumeOp.sourceResume b v vn rid') = st := by
          rw [applyResumeOp_sourceResume, if_pos hpres]
        rw [he]
        exact st_self_leaf st rid hInv
      · have hnone' : getEntry st.records rid' = none := by
          cases hg : getEntry st.records rid' with
          | none => rfl
          | some rec => rw [hg] at hpres; exact absurd rfl hpres
        have he : applyResumeOp st (ResumeOp.sourceResume b v vn rid') =
            { records := setEntry st.records rid'
                (standard_new_resume_values b v vn rid'),
              loc := setEntry st.loc rid' FileLoc.inNew } := by
          rw [applyResumeOp_sourceResume, if_neg hpres]
          unfold create_record_for_new_resume_id_in_resume_records
          rw [if_neg hpres]
        rw [he]
        by_cases hr : rid' = rid
        · subst hr
          have hnew : statusOf
              { records := setEntry st.records rid'
                  (standard_new_resume_values b v vn rid'),
                loc := setEntry st.loc rid' FileLoc.inNew } rid' =
              some (V.str "new") := by
            show recordField (setEntry st.records rid'
              (standard_new_resume_values b v vn rid')) rid' "resume_sorting_status" =
              some (V.str "new")
            simp only [recordField, getEntry_setEntry_self, Option.some_bind]
            rfl
          have hstnone : statusOf st rid' = none := by
            show recordField st.records rid' "resume_sorting_status" = none
            simp [recordField, hnone']
          refine ⟨⟨Or.inr (Or.inl hnew), ?_⟩, ?_, ?_⟩
          · intro hpf
            rcases hpf with h | h <;> (rw [hnew] at h; simp at h)
          · intro hpf
            rcases hpf with h | h <;> (rw [hstnone] at h; simp at h)
          · intro _
            exact Or.inl ⟨hnone', hnew⟩
        · have hstat : statusOf
              { records := setEntry st.records rid'
                  (standard_new_resume_values b v vn rid'),
                loc := setEntry st.loc rid' FileLoc.inNew } rid = statusOf st rid := by
            show recordField (setEntry st.records rid' _) rid "resume_sorting_status" =
              recordField st.records rid "resume_sorting_status"
            simp only [recordField]
            rw [getEntry_setEntry_ne _ _ _ _ (fun hh => hr hh.symm)]
          refine unchanged_status_step st _ rid hstat ?_ ?_ hInv
          · intro hpf
            rw [hstat] at hpf
            show getEntry (setEntry st.loc rid' FileLoc.inNew) rid ≠ some FileLoc.inNew
            rw [getEntry_setEntry_ne _ _ _ _ (fun hh => hr hh.symm)]
            exact hInv.2 hpf
          · intro h
            show getEntry (setEntry st.records rid' _) rid = none
            rw [getEntry_setEntry_ne _ _ _ _ (fun hh => hr hh.symm)]
            exact h
  | updateField rid' key value =>
      have hkey : key ≠ "resume_sorting_status" := hsafe
      cases hu : update_resume_record_with_top_level_key st.records rid' key value with
      | error e =>
          have he : applyResumeOp st (ResumeOp.updateField rid' key value) = st := by
            rw [applyResumeOp_updateField, hu]
          rw [he]
          exact st_self_leaf st rid hInv
      | ok r =>
          have he : applyResumeOp st (ResumeOp.updateField rid' key value) =
              ResumeState.mk r st.loc := by
            rw [applyResumeOp_updateField, hu]
          rw [he]
          exact records_only_leaf st rid rid' key value r hu hkey hInv
  | runTask p env rid' =>
      have he0 : applyResumeOp st (ResumeOp.runTask p env rid') =
          resume_analysis_from_ai_to_user_sort_resume p env rid' st := rfl
      rw [he0]
      cases hai : env.aiResult with
      | none =>
          have ht : resume_analysis_from_ai_to_user_sort_resume p env rid' st = st := by
            unfold resume_analysis_from_ai_to_user_sort_resume
            rw [hai]
          rw [ht]
          exact st_self_leaf st rid hInv
      | some ai =>
          cases hu : update_resume_record_with_top_level_key st.records rid'
              "ai_analysis" (V.obj ai) with
          | error e =>
              have ht : resume_analysis_from_ai_to_user_sort_resume p env rid' st =
                  st := by
                unfold resume_analysis_from_ai_to_user_sort_resume
                simp only [hai, hu]
              rw [ht]
              exact st_self_leaf st rid hInv
          | ok r1 =>
              by_cases hsend : env.sendRaises = true
              · have ht : resume_analysis_from_ai_to_user_sort_resume p env rid' st =
                    { st with records := r1 } := by
                  unfold resume_analysis_from_ai_to_user_sort_resume
                  simp only [hai, hu, hsend, if_true]
                rw [ht]
                exact records_only_leaf st rid rid' "ai_analysis" (V.obj ai) r1 hu
                  (by decide) hInv
              · by_cases hchg : env.changeStateRaises = true
                · have ht : resume_analysis_from_ai_to_user_sort_resume p env rid' st =
                      ResumeState.mk r1 st.loc := by
                    unfold resume_analysis_from_ai_to_user_sort_resume
                    simp only [hai, hu]
                    rw [if_neg hsend, if_pos hchg]
                  rw [ht]
                  exact records_only_leaf st rid rid' "ai_analysis" (V.obj ai) r1 hu
                    (by decide) hInv
                · cases hscore : parseFinalScore ai with
                  | none =>
                      have ht : resume_analysis_from_ai_to_user_sort_resume p env rid'
                          st = ResumeState.mk r1 st.loc := by
                        unfold resume_analysis_from_ai_to_user_sort_resume
                        simp only [hai, hu]
                        rw [if_neg hsend, if_neg hchg]
                        simp only [hscore]
                      rw [ht]
                      exact records_only_leaf st rid rid' "ai_analysis" (V.obj ai) r1 hu
                        (by decide) hInv
                  | some score =>
                      by_cases hge : p ≤ score
                      · by_cases hcond : getEntry st.loc rid' = some FileLoc.inNew ∧
                            env.moveRaises = false
                        · cases hu2 : update_resume_record_with_top_level_key r1 rid'
                              "resume_sorting_status" (V.str "passed") with
                          | ok r2 =>
                              have ht : resume_analysis_from_ai_to_user_sort_resume p
                                  env rid' st =
                                  ResumeState.mk r2 (setEntry st.loc rid' FileLoc.inPassed) := by
                                unfold resume_analysis_from_ai_to_user_sort_resume
                                simp only [hai, hu]
                                rw [if_neg hsend, if_neg hchg]
                                simp only [hscore]
                                rw [if_pos hge, if_pos hcond]
                                simp only [hu2]
                              rw [ht]
                              exact sort_leaf_ok st rid rid' "passed" FileLoc.inPassed
                                ai r1 r2 hu hu2 hcond.1 (Or.inl rfl) (by decide) hInv
                          | error e =>
                              have ht : resume_analysis_from_ai_to_user_sort_resume p
                                  env rid' st =
                                  ResumeState.mk r1 (setEntry st.loc rid' FileLoc.inPassed) := by
                                unfold resume_analysis_from_ai_to_user_sort_resume
                                simp only [hai, hu]
                                rw [if_neg hsend, if_neg hchg]
                                simp only [hscore]
                                rw [if_pos hge, if_pos hcond]
                                simp only [hu2]
                              rw [ht]
                              exact sort_leaf_error st rid rid' FileLoc.inPassed ai r1
                                hu (by decide) hInv
                        · have ht : resume_analysis_from_ai_to_user_sort_resume p env
                              rid' st = ResumeState.mk r1 st.loc := by
                            unfold resume_analysis_from_ai_to_user_sort_resume
                            simp only [hai, hu]
                            rw [if_neg hsend, if_neg hchg]
                            simp only [hscore]
                            rw [if_pos hge, if_neg hcond]
                          rw [ht]
                          exact records_only_leaf st rid rid' "ai_analysis" (V.obj ai)
                            r1 hu (by decide) hInv
                      · by_cases hcond : getEntry st.loc rid' = some FileLoc.inNew ∧
                            env.moveRaises = false
                        · cases hu2 : update_resume_record_with_top_level_key r1 rid'
                              "resume_sorting_status" (V.str "failed") with
                          | ok r2 =>
                              have ht : resume_analysis_from_ai_to_user_sort_resume p
                                  env rid' st =
                                  ResumeState.mk r2 (setEntry st.loc rid' FileLoc.inFailed) := by
                                unfold resume_analysis_from_ai_to_user_sort_resume
                                simp only [hai, hu]
                                rw [if_neg hsend, if_neg hchg]
                                simp only [hscore]
                                rw [if_neg hge, if_pos hcond]
                                simp only [hu2]
                              rw [ht]
                              exact sort_leaf_ok st rid rid' "failed" FileLoc.inFailed
                                ai r1 r2 hu hu2 hcond.1 (Or.inr rfl) (by decide) hInv
                          | error e =>
                              have ht : resume_analysis_from_ai_to_user_sort_resume p
                                  env rid' st =
                                  ResumeState.mk r1 (setEntry st.loc rid' FileLoc.inFailed) := by
                                unfold resume_analysis_from_ai_to_user_sort_resume
                                simp only [hai, hu]
                                rw [if_neg hsend, if_neg hchg]
                                simp only [hscore]
                                rw [if_neg hge, if_pos hcond]
                                simp only [hu2]
                              rw [ht]
                              exact sort_leaf_error st rid rid' FileLoc.inFailed ai r1
                                hu (by decide) hInv
                        · have ht : resume_analysis_from_ai_to_user_sort_resume p env
                              rid' st = ResumeState.mk r1 st.loc := by
                            unfold resume_analysis_from_ai_to_user_sort_resume
                            simp only [hai, hu]
                            rw [if_neg hsend, if_neg hchg]
                            simp only [hscore]
                            rw [if_neg hge, if_neg hcond]
                          rw [ht]
                          exact records_only_leaf st rid rid' "ai_analysis" (V.obj ai)
                            r1 hu (by decide) hInv

/-- C5: the sorting status of every resume record moves only along
`"new" → "passed"` or `"new" → "failed"`, exactly once, under every
operation of the pipeline (discovery, field enrichment with any
non-status key — the only call sites of the generic updater outside the
job — and the analysis job itself): one step preserves the invariant,
never changes a status that is already `"passed"` or `"failed"`, and
changes a status only by creating it as `"new"` or by sorting a `"new"`
record; over any sequence of such operations a sorted status stays
frozen. -/
theorem C5_sorting_status_one_shot (st : ResumeState) (rid : String) :
    (∀ op : ResumeOp, statusSafeOp op → ResumeInv st rid →
      StatusStepOk st (applyResumeOp st op) rid) ∧
    (∀ ops : List ResumeOp, (∀ o ∈ ops, statusSafeOp o) → ResumeInv st rid →
      ResumeInv (applyResumeOps st ops) rid ∧
      ((statusOf st rid = some (V.str "passed") ∨
          statusOf st rid = some (V.str "failed")) →
        statusOf (applyResumeOps st ops) rid = statusOf st rid)) := by
  constructor
  · intro op hsafe hInv
    exact resume_step_ok st rid op hsafe hInv
  · intro ops
    induction ops generalizing st with
    | nil => intro _ hInv; exact ⟨hInv, fun _ => rfl⟩
    | cons o rest ih =>
        intro hall hInv
        have hstep := resume_step_ok st rid o (hall o (List.mem_cons_self _ _)) hInv
        have hih := ih (applyResumeOp st o)
          (fun o' ho' => hall o' (List.mem_cons_of_mem _ ho')) hstep.1
        have he : applyResumeOps st (o :: rest) =
            applyResumeOps (applyResumeOp st o) rest := rfl
        rw [he]
        refine ⟨hih.1, ?_⟩
        intro hpf
        rw [hih.2 (by rw [hstep.2.1 hpf]; exact hpf), hstep.2.1 hpf]

/-- Witness for C5 at the concrete one-resume state: the safe-op and
invariant hypotheses hold for a successful analysis job on `"r3"`, the
step conclusion follows, and the job indeed sorts the resume to
`"passed"` exactly once (a second run leaves the status `"passed"`). -/
theorem C5_sorting_status_one_shot_witness :
    statusSafeOp (ResumeOp.runTask 7 envTaskOk "r3") ∧
    ResumeInv sampleTaskState "r3" ∧
    StatusStepOk sampleTaskState
      (applyResumeOp sampleTaskState (ResumeOp.runTask 7 envTaskOk "r3")) "r3" ∧
    statusOf (applyResumeOps sampleTaskState
      [ResumeOp.runTask 7 envTaskOk "r3", ResumeOp.runTask 7 envTaskOk "r3"]) "r3" =
      some (V.str "passed") := by
  have c := C5_sorting_status_one_shot sampleTaskState "r3"
  refine ⟨trivial, ⟨by decide, by decide⟩,
    c.1 (ResumeOp.runTask 7 envTaskOk "r3") trivial ⟨by decide, by decide⟩, by decide⟩

end HrVibe
